import Mathlib

/-!
Shallow embedding of the TalentMatch query planning and execution engine
(`bi_engine.py`) together with proofs of the specified properties.

Python strings are modelled as Lean `String` or `List Char`; Python floats
appearing in the engine's decision logic are modelled as `ℚ`; Python `None`
is modelled with `Option`; Python dates are modelled by a `PyDate` record
with explicit proleptic-Gregorian calendar arithmetic mirroring `datetime.date`.
-/

set_option maxRecDepth 1000000

set_option maxHeartbeats 4000000

namespace BIEngine

/-! Strings scanned by the safety gate and the classifier are modelled as
their lists of character codes (`List Nat`), which the kernel evaluates
efficiently; strings carried as data (names, skills) stay `String`. -/

/-- Character codes of a string. -/
def codes (s : String) : List Nat := s.data.map Char.toNat

/-- ASCII lowercasing of one character code, as Python `str.lower()` acts on
the ASCII text handled by the engine. -/
def lowCode (n : Nat) : Nat := if 65 ≤ n && n ≤ 90 then n + 32 else n

/-- Python `s.lower()` on a code list. -/
def lowC (s : List Nat) : List Nat := s.map lowCode

/-- Whitespace character codes stripped by Python `str.strip()` (ASCII). -/
def wsCode (n : Nat) : Bool :=
  n == 32 || n == 9 || n == 10 || n == 13 || n == 11 || n == 12

/-- Python `s.strip()` on a code list. -/
def pyStripC (s : List Nat) : List Nat :=
  ((s.dropWhile wsCode).reverse.dropWhile wsCode).reverse

/-- Boolean prefix test: `isPrefC p s` holds iff `p` is a prefix of `s`. -/
def isPrefC : List Nat → List Nat → Bool
  | [], _ => true
  | _ :: _, [] => false
  | p :: ps, c :: cs => p == c && isPrefC ps cs

/-- Boolean substring test, as Python `pat in s`. -/
def hasInfixC : List Nat → List Nat → Bool
  | [], pat => isPrefC pat []
  | c :: rest, pat => isPrefC pat (c :: rest) || hasInfixC rest pat

/-- Python `pat in s` on strings. -/
def pyIn (pat s : String) : Bool := hasInfixC (codes s) (codes pat)

/-- Word-character codes for the regex `\b` boundary (`[A-Za-z0-9_]`). -/
def wordCode (n : Nat) : Bool :=
  (97 ≤ n && n ≤ 122) || (65 ≤ n && n ≤ 90) || (48 ≤ n && n ≤ 57) || n == 95

/-- Match of `re.match(r"^kw\b", c, re.IGNORECASE)` for a single literal word
`kw`: `kw` is a prefix of the lowercased string and the following character
(if any) is not a word character. -/
def matchWordStartC (c : List Nat) (kw : List Nat) : Bool :=
  isPrefC kw (lowC c) &&
    (match c.drop kw.length with
     | [] => true
     | d :: _ => !wordCode d)

/-- Forbidden keyword list of `_is_safe_cypher`. -/
def forbiddenBasic : List String :=
  ["create", "merge", "set", "delete", "detach", "call", "apoc", "gds",
   "load csv", "drop"]

/-- The engine's `_is_safe_cypher` gate used on plan-compiled queries. -/
def is_safe_cypher (cypher : String) : Bool :=
  if codes cypher = [] then false
  else
    let lowered := lowC (codes cypher)
    if forbiddenBasic.any (fun f => hasInfixC lowered (codes f)) then false
    else
      ["match", "with", "return", "optional match"].any
        (fun a => isPrefC (codes a) (pyStripC lowered))

/-- Forbidden keyword list of `_is_safe_readonly_cypher` (the Safety
Validator described in the specification, section 4.4). -/
def forbiddenReadonly : List String :=
  ["delete", "detach", "create", "merge", "set", "drop", "remove",
   "call", "load csv", "apoc.", "gds.", "periodic", "foreach",
   "dbms", "admin", "schema"]

/-- The engine's `_is_safe_readonly_cypher` allowlist gate: the stripped
query must be nonempty, must match `^(match|with|return)\b` ignoring case,
and its lowercasing must contain no forbidden keyword. -/
def is_safe_readonly_cypher (cypher : String) : Bool :=
  let c := pyStripC (codes cypher)
  if c = [] then false
  else if !(["match", "with", "return"].any (fun kw => matchWordStartC c (codes kw)))
    then false
  else if forbiddenReadonly.any (fun f => hasInfixC (lowC c) (codes f)) then false
  else true

/-- The spec's fixed blocklist of mutation/administrative keywords. -/
def specBlocklist : List String :=
  ["create", "merge", "set", "delete", "detach", "drop", "remove", "call",
   "load csv", "periodic", "foreach", "dbms", "admin", "schema"]

/-! A single-pass scanner used to discharge keyword-absence obligations on
the engine's long compiled query strings: at each position it dispatches on
the lowercased head character and tests the tails of every keyword of
`forbiddenBasic` and `forbiddenReadonly` starting with it.  Its equivalence
with the per-keyword substring tests is proved below (`scanForb_correct`). -/

/-- Prefix test of an already-lowercased pattern against unlowered codes. -/
def isPrefLowN : List Nat → List Nat → Bool
  | [], _ => true
  | _ :: _, [] => false
  | p :: ps, c :: cs => Bool.and (Nat.beq p (lowCode c)) (isPrefLowN ps cs)

/-- Code list of `"reate"`. -/
def pReate : List Nat := [114,101,97,116,101]

/-- Code list of `"all"`. -/
def pAll : List Nat := [97,108,108]

/-- Code list of `"erge"`. -/
def pErge : List Nat := [101,114,103,101]

/-- Code list of `"et"`. -/
def pEt : List Nat := [101,116]

/-- Code list of `"chema"`. -/
def pChema : List Nat := [99,104,101,109,97]

/-- Code list of `"elete"`. -/
def pElete : List Nat := [101,108,101,116,101]

/-- Code list of `"etach"`. -/
def pEtach : List Nat := [101,116,97,99,104]

/-- Code list of `"rop"`. -/
def pRop : List Nat := [114,111,112]

/-- Code list of `"bms"`. -/
def pBms : List Nat := [98,109,115]

/-- Code list of `"oad csv"`. -/
def pOadcsv : List Nat := [111,97,100,32,99,115,118]

/-- Code list of `"emove"`. -/
def pEmove : List Nat := [101,109,111,118,101]

/-- Code list of `"eriodic"`. -/
def pEriodic : List Nat := [101,114,105,111,100,105,99]

/-- Code list of `"oreach"`. -/
def pOreach : List Nat := [111,114,101,97,99,104]

/-- Code list of `"dmin"`. -/
def pDmin : List Nat := [100,109,105,110]

/-- Code list of `"poc"`. -/
def pPoc : List Nat := [112,111,99]

/-- Code list of `"ds"`. -/
def pDs : List Nat := [100,115]

/-- Does some forbidden keyword start at this position?  `lc` is the
lowercased head code, `rest` the remaining unlowered codes. -/
def forbAt (lc : Nat) (rest : List Nat) : Bool :=
  if Nat.beq lc 99 then isPrefLowN pReate rest || isPrefLowN pAll rest
  else if Nat.beq lc 109 then isPrefLowN pErge rest
  else if Nat.beq lc 115 then isPrefLowN pEt rest || isPrefLowN pChema rest
  else if Nat.beq lc 100 then
    isPrefLowN pElete rest || isPrefLowN pEtach rest || isPrefLowN pRop rest ||
    isPrefLowN pBms rest
  else if Nat.beq lc 108 then isPrefLowN pOadcsv rest
  else if Nat.beq lc 114 then isPrefLowN pEmove rest
  else if Nat.beq lc 112 then isPrefLowN pEriodic rest
  else if Nat.beq lc 102 then isPrefLowN pOreach rest
  else if Nat.beq lc 97 then isPrefLowN pDmin rest || isPrefLowN pPoc rest
  else if Nat.beq lc 103 then isPrefLowN pDs rest
  else false

/-- Single-pass scan: no forbidden keyword occurs anywhere. -/
def scanForb : List Nat → Bool
  | [] => true
  | c :: rest => !(forbAt (lowCode c) rest) && scanForb rest

/-- The sixteen keywords covered by `scanForb` (union of both gate lists,
with the procedure-library prefixes `apoc.`/`gds.` relaxed to `apoc`/`gds`). -/
def pats16 : List String :=
  ["create", "merge", "set", "delete", "detach", "drop", "remove", "call",
   "load csv", "periodic", "foreach", "dbms", "admin", "schema", "apoc", "gds"]

/-! Character-level helpers for data normalisation (skill names etc.). -/

/-- Whitespace characters stripped by Python `str.strip()` (ASCII range). -/
def pyWs (c : Char) : Bool :=
  c == ' ' || c == '\t' || c == '\n' || c == '\r' || c == '\x0b' || c == '\x0c'

/-- ASCII lowercasing of a single character. -/
def lowChar (c : Char) : Char :=
  if c == 'A' then 'a' else if c == 'B' then 'b' else if c == 'C' then 'c'
  else if c == 'D' then 'd' else if c == 'E' then 'e' else if c == 'F' then 'f'
  else if c == 'G' then 'g' else if c == 'H' then 'h' else if c == 'I' then 'i'
  else if c == 'J' then 'j' else if c == 'K' then 'k' else if c == 'L' then 'l'
  else if c == 'M' then 'm' else if c == 'N' then 'n' else if c == 'O' then 'o'
  else if c == 'P' then 'p' else if c == 'Q' then 'q' else if c == 'R' then 'r'
  else if c == 'S' then 's' else if c == 'T' then 't' else if c == 'U' then 'u'
  else if c == 'V' then 'v' else if c == 'W' then 'w' else if c == 'X' then 'x'
  else if c == 'Y' then 'y' else if c == 'Z' then 'z' else c

/-- Python `s.lower()` on strings. -/
def strLower (s : String) : String := ⟨s.data.map lowChar⟩

/-- Python `s.strip()` on strings (used for the graph's `trim`). -/
def strStrip (s : String) : String :=
  ⟨((s.data.dropWhile pyWs).reverse.dropWhile pyWs).reverse⟩

/-- Truthiness of a Python `Optional[str]`: `None` and `""` are falsy. -/
def truthyS : Option String → Bool
  | none => false
  | some s => !(s == "")

/-! ### Dates, mirroring `datetime.date` arithmetic used by the engine -/

/-- A Python `datetime.date` value. -/
structure PyDate where
  year : Nat
  month : Nat
  day : Nat
deriving DecidableEq, Repr

/-- Gregorian leap-year rule used by `datetime.date`. -/
def isLeapYear (y : Nat) : Bool :=
  y % 4 == 0 && (y % 100 != 0 || y % 400 == 0)

/-- Number of days in a month of the proleptic Gregorian calendar. -/
def daysInMonth (y m : Nat) : Nat :=
  if m == 2 then (if isLeapYear y then 29 else 28)
  else if m == 4 || m == 6 || m == 9 || m == 11 then 30
  else 31

/-- `d + timedelta(days=1)`. -/
def succDay (d : PyDate) : PyDate :=
  if d.day < daysInMonth d.year d.month then ⟨d.year, d.month, d.day + 1⟩
  else if d.month < 12 then ⟨d.year, d.month + 1, 1⟩
  else ⟨d.year + 1, 1, 1⟩

/-- `d - timedelta(days=1)`. -/
def predDay (d : PyDate) : PyDate :=
  if 1 < d.day then ⟨d.year, d.month, d.day - 1⟩
  else if 1 < d.month then ⟨d.year, d.month - 1, daysInMonth d.year (d.month - 1)⟩
  else ⟨d.year - 1, 12, 31⟩

/-- `d + timedelta(days=n)`. -/
def addDays (d : PyDate) : Nat → PyDate
  | 0 => d
  | n + 1 => addDays (succDay d) n

/-- Zero-padded decimal rendering used by `date.isoformat()`. -/
def padNum (width n : Nat) : String :=
  let s := toString n
  let k := s.length
  if k < width then String.mk (List.replicate (width - k) '0') ++ s else s

/-- `d.isoformat()`, the `YYYY-MM-DD` rendering of a date. -/
def iso (d : PyDate) : String :=
  padNum 4 d.year ++ "-" ++ padNum 2 d.month ++ "-" ++ padNum 2 d.day

/-! ### Plan schema (`QueryPlan` and sub-records) -/

/-- `AvailabilityPlan` (`type` defaults to `"none"`). -/
structure AvailabilityPlan where
  type : String := "none"
  value : Option String := none
deriving DecidableEq, Repr

/-- `BudgetPlan`. -/
structure BudgetPlan where
  max_rate : Option ℚ := none
deriving DecidableEq, Repr

/-- `TeamPlan`. -/
structure TeamPlan where
  size : Option Nat := none
  allocation : Option ℚ := none
deriving DecidableEq, Repr

/-- `ScenarioPlan` (`kind` defaults to `"none"`). -/
structure ScenarioPlan where
  kind : String := "none"
deriving DecidableEq, Repr

/-- `ReasoningPlan` (`kind` defaults to `"collab"`). -/
structure ReasoningPlan where
  kind : String := "collab"
  focus_person : Option String := none
deriving DecidableEq, Repr

/-- The `QueryPlan` value object handed from planning to query synthesis. -/
structure QueryPlan where
  query_type : String
  skills : List String := []
  roles : List String := []
  seniority : Option String := none
  timezone : Option String := none
  location : Option String := none
  availability : AvailabilityPlan := {}
  budget : BudgetPlan := {}
  team : TeamPlan := {}
  scenario : ScenarioPlan := {}
  reasoning : ReasoningPlan := {}
  aggregation_kind : Option String := none
  rfp_keyword : Option String := none
  certification_mode : Bool := false
  project_mode : Bool := false
deriving DecidableEq, Repr

/-- Bound parameter values passed alongside a compiled query. -/
inductive PValue where
  | str : String → PValue
  | num : ℚ → PValue
  | nat : Nat → PValue
  | strList : List String → PValue
deriving DecidableEq, Repr

/-- A bound-parameters map, in insertion order. -/
abbrev Params := List (String × PValue)

/-- Risk thresholds (environment defaults `0.90` / `0.50`). -/
def RISK_HIGH_THRESHOLD : ℚ := 9 / 10

/-- Risk threshold for the MEDIUM band (environment default `0.50`). -/
def RISK_MED_THRESHOLD : ℚ := 1 / 2

/-! ### Time-window computation (`_window_from_availability`, `_parse_time_window`) -/

/-- `_window_from_availability`: window of the current/next month or the
current quarter, as a pair of ISO date strings. -/
def window_from_availability (availability : AvailabilityPlan) (today : PyDate) :
    Option (String × String) :=
  if availability.type = "this_month" then
    let start : PyDate := ⟨today.year, today.month, 1⟩
    let t := addDays ⟨start.year, start.month, 28⟩ 4
    let e := predDay ⟨t.year, t.month, 1⟩
    some (iso start, iso e)
  else if availability.type = "next_month" then
    let nm : PyDate :=
      ⟨today.year + (if today.month == 12 then 1 else 0),
       if today.month == 12 then 1 else today.month + 1, 1⟩
    let t := addDays ⟨nm.year, nm.month, 28⟩ 4
    let e := predDay ⟨t.year, t.month, 1⟩
    some (iso nm, iso e)
  else if availability.type = "quarter" then
    let m := (today.month - 1) / 3 + 1
    let startMonth := (m - 1) * 3 + 1
    let start : PyDate := ⟨today.year, startMonth, 1⟩
    let endMonth := startMonth + 2
    let t := addDays ⟨today.year, endMonth, 28⟩ 4
    let e := predDay ⟨t.year, t.month, 1⟩
    some (iso start, iso e)
  else none

/-- `first_day_of_month` helper of `_parse_time_window`. -/
def first_day_of_month (d : PyDate) : PyDate := ⟨d.year, d.month, 1⟩

/-- `last_day_of_month` helper of `_parse_time_window`: first day of the next
month minus one day. -/
def last_day_of_month (d : PyDate) : PyDate :=
  let first := first_day_of_month d
  let nextFirst : PyDate :=
    if first.month == 12 then ⟨first.year + 1, 1, 1⟩
    else ⟨first.year, first.month + 1, 1⟩
  predDay nextFirst

/-- One attempt of the regex `\bq([1-4])\b` at the head of the code list
(`113` is `q`, `49`–`52` are `1`–`4`), given the preceding code (if any). -/
def qTokHere (prev : Option Nat) : List Nat → Option Nat
  | 113 :: d :: rest =>
      if (match prev with | none => true | some p => !wordCode p)
          && (49 ≤ d && d ≤ 52)
          && (match rest with | [] => true | e :: _ => !wordCode e)
      then some (d - 48) else none
  | _ => none

/-- Leftmost match of `re.search(r"\bq([1-4])\b", q)`. -/
def searchQuarter (prev : Option Nat) : List Nat → Option Nat
  | [] => none
  | c :: rest =>
      match qTokHere prev (c :: rest) with
      | some n => some n
      | none => searchQuarter (some c) rest

/-- `_parse_time_window(question)` evaluated at a given `today`:
returns ISO `start`/`end` dates for "this month", "next month" or a
quarter token, else `none`. -/
def parse_time_window (question : String) (today : PyDate) :
    Option (String × String) :=
  let q := lowC (codes question)
  if hasInfixC q (codes "this month") then
    let s := first_day_of_month today
    let e := last_day_of_month today
    some (iso s, iso e)
  else if hasInfixC q (codes "next month") then
    let nm : PyDate :=
      if today.month == 12 then ⟨today.year + 1, 1, 1⟩
      else ⟨today.year, today.month + 1, 1⟩
    let s := first_day_of_month nm
    let e := last_day_of_month nm
    some (iso s, iso e)
  else
    match searchQuarter none q with
    | some qn =>
        let startMonth := if qn == 1 then 1 else if qn == 2 then 4 else if qn == 3 then 7 else 10
        let s : PyDate := ⟨today.year, startMonth, 1⟩
        let endMonth := startMonth + 2
        let e := last_day_of_month ⟨today.year, endMonth, 1⟩
        some (iso s, iso e)
    | none => none

/-! ### Plan-to-query compilers (`_cypher_*` builders) -/

/-- Python `x or default` on an optional rational (`0.0` is falsy). -/
def orQ (x : Option ℚ) (dflt : ℚ) : ℚ :=
  match x with
  | some v => if v = 0 then dflt else v
  | none => dflt

/-- Python `x or default` on an optional natural number (`0` is falsy). -/
def orN (x : Option Nat) (dflt : Nat) : Nat :=
  match x with
  | some v => if v = 0 then dflt else v
  | none => dflt

/-- `_skill_and_clause`: conjunctive skill filter fragment. -/
def skill_and_clause (skills : List String) : String :=
  if skills.isEmpty then ""
  else
    "MATCH (p)-[:HAS_SKILL]->(s:Skill)\n" ++
    "WITH p, collect(DISTINCT toLower(coalesce(s.id,s.name,\x27\x27))) as skill_list\n" ++
    "WHERE ALL(x IN $skills WHERE ANY(sk IN skill_list WHERE sk CONTAINS x))\n"

/-- `_base_load_cte`: load / latest-end aggregation fragment. -/
def base_load_cte : String :=
  "OPTIONAL MATCH (p)-[r:ASSIGNED_TO]->(proj:Project)\n" ++
  "WITH p, sum(coalesce(r.allocation_percentage, coalesce(r.allocation,0.0))) as load, max(coalesce(r.end_date, proj.end_date)) as latest_end\n"

/-- `_availability_clause`: optional availability filter fragment plus its
window parameters. -/
def availability_clause (availability : AvailabilityPlan) (today : PyDate) :
    String × Params :=
  if availability.type == "none" then ("", [])
  else if availability.type == "now" then ("WHERE coalesce(load,0) < 1.0", [])
  else if (availability.type == "this_month" || availability.type == "next_month" ||
      availability.type == "quarter") &&
      (window_from_availability availability today).isSome then
    ("WHERE coalesce(load,0) < 1.0 OR (latest_end IS NOT NULL AND date(latest_end) <= date($start))",
     match window_from_availability availability today with
     | some w => [("start", PValue.str w.1), ("end", PValue.str w.2)]
     | none => [])
  else if availability.type == "after_end" then
    ("WHERE coalesce(load,0) < 1.0", [])
  else ("", [])

/-- `_cypher_counting`. -/
def cypher_counting (plan : QueryPlan) (today : PyDate) : String × Params :=
  if plan.certification_mode && !plan.skills.isEmpty then
    let params : Params := [("skills", PValue.strList (plan.skills.map strLower))]
    let cypher :=
      "MATCH (p:Person)-[:EARNED]->(c:Certification)\n" ++
      "WHERE ANY(x IN $skills WHERE toLower(coalesce(c.id,c.name,\x27\x27)) CONTAINS x)\n" ++
      base_load_cte
    let ap := availability_clause plan.availability today
    (cypher ++ ap.1 ++ "\nRETURN count(DISTINCT p) as result", params ++ ap.2)
  else if plan.project_mode then
    ("MATCH (proj:Project)\n" ++
     "WHERE toLower(coalesce(proj.status,\x27\x27)) IN [\x27ongoing\x27,\x27active\x27,\x27in progress\x27]\n" ++
     "RETURN count(DISTINCT proj) as result", [])
  else
    let params : Params := [("skills", PValue.strList (plan.skills.map strLower))]
    let cypher := "MATCH (p:Person)\n" ++ skill_and_clause plan.skills ++ base_load_cte
    let ap := availability_clause plan.availability today
    (cypher ++ ap.1 ++ "\nRETURN count(DISTINCT p) as result", params ++ ap.2)

/-- `_cypher_filtering`. -/
def cypher_filtering (plan : QueryPlan) (today : PyDate) : String × Params :=
  let params0 : Params := [("skills", PValue.strList (plan.skills.map strLower))]
  let cypher0 := "MATCH (p:Person)\n" ++ skill_and_clause plan.skills ++ base_load_cte
  let window := window_from_availability plan.availability today
  let step1 : List String × Params :=
    if !(plan.availability.type == "") && !(plan.availability.type == "none") then
      match window with
      | some w =>
          (["coalesce(load,0) < 1.0 OR (latest_end IS NOT NULL AND date(latest_end) <= date($start))"],
           params0 ++ [("start", PValue.str w.1), ("end", PValue.str w.2)])
      | none => (["coalesce(load,0) < 1.0"], params0)
    else (["coalesce(load,0) < 1.0"], params0)
  let step2 : List String × Params :=
    if truthyS plan.seniority then
      (step1.1 ++ ["toLower(coalesce(p.seniority,\x27\x27)) CONTAINS toLower($sen)"],
       step1.2 ++ [("sen", PValue.str (plan.seniority.getD ""))])
    else step1
  let step3 : List String × Params :=
    if truthyS plan.timezone then
      (step2.1 ++ ["p.timezone = $tz"], step2.2 ++ [("tz", PValue.str (plan.timezone.getD ""))])
    else step2
  let cypher1 := cypher0 ++ "WHERE " ++ String.intercalate " AND " step3.1 ++ "\n"
  let cypher2 := cypher1 ++
    "OPTIONAL MATCH (p)-[:HAS_SKILL]->(s:Skill)\n" ++
    "WITH p, load, collect(DISTINCT coalesce(s.id,s.name)) as skills\n"
  (cypher2 ++
   "RETURN p.name as name, p.role as role, p.seniority as seniority, " ++
   "round((1.0 - coalesce(load,0))*100,0) as availability_percent, " ++
   "skills\n" ++
   "ORDER BY availability_percent DESC LIMIT 50", step3.2)

/-- Skills-distribution-by-graduation-year query of `_cypher_aggregation`. -/
def aggGradYearQ : String :=
  "\n            MATCH (p:Person)-[:HAS_SKILL]->(s:Skill)\n" ++
  "            WHERE p.graduation_year IS NOT NULL\n" ++
  "            WITH p.graduation_year as graduation_year,\n" ++
  "                coalesce(s.id,s.name) as skill,\n" ++
  "                count(DISTINCT p) as people_count\n" ++
  "            RETURN graduation_year, skill, people_count\n" ++
  "            ORDER BY graduation_year DESC, people_count DESC\n" ++
  "            LIMIT 50\n            "

/-- `_cypher_aggregation`. -/
def cypher_aggregation (plan : QueryPlan) (today : PyDate) : String × Params :=
  if plan.aggregation_kind == some "skills_by_grad_year" then
    (aggGradYearQ, [])
  else if plan.aggregation_kind == some "capacity_total" then
    let cypher := "MATCH (p:Person)\n" ++ base_load_cte
    let ap := availability_clause plan.availability today
    let cypher := if !(ap.1 == "") then cypher ++ ap.1 ++ "\n" else cypher
    (cypher ++ "RETURN round(sum(1.0 - coalesce(load,0)),2) as total_capacity, count(p) as people",
     ap.2)
  else
    let params : Params := [("skills", PValue.strList (plan.skills.map strLower))]
    let cypher := "MATCH (p:Person)\n" ++ skill_and_clause plan.skills
    if plan.aggregation_kind == some "avg_rate" then
      (cypher ++ "RETURN\n" ++
       "    round(avg(coalesce(p.rate,0)), 2) as avg_rate,\n" ++
       "    count(p) as people", params)
    else
      (cypher ++ "RETURN\n" ++
       "    round(avg(coalesce(p.years_experience, p.years_of_experience)), 2) as avg_years,\n" ++
       "    count(p) as people", params)

/-- Collaboration-success query of `_cypher_reasoning`. -/
def reasoningCollabSuccessQ : String :=
  "\n            MATCH (a:Person)-[:WORKED_AT]->(c:Company)<-[:WORKED_AT]-(b:Person)\n" ++
  "            WHERE a.name < b.name\n" ++
  "            WITH a, b,\n" ++
  "                collect(DISTINCT c.name) as shared_companies,\n" ++
  "                count(DISTINCT c) as shared_count,\n" ++
  "                coalesce(a.performance_score, 0.0) as a_score,\n" ++
  "                coalesce(b.performance_score, 0.0) as b_score\n" ++
  "            WHERE shared_count >= 2 OR (a_score >= 7.5 AND b_score >= 7.5)\n" ++
  "            RETURN\n" ++
  "                a.name as person_a,\n" ++
  "                b.name as person_b,\n" ++
  "                shared_companies,\n" ++
  "                shared_count,\n" ++
  "                a_score,\n" ++
  "                b_score\n" ++
  "            ORDER BY shared_count DESC, (a_score + b_score) DESC\n" ++
  "            LIMIT 30\n            "

/-- Focused collaboration query of `_cypher_reasoning`. -/
def reasoningCollabFocusQ : String :=
  "\n                MATCH (p1:Person \x7bname: $name\x7d)-[:WORKED_AT]->(c:Company)<-[:WORKED_AT]-(p2:Person)\n" ++
  "                WHERE p1.name <> p2.name\n" ++
  "                WITH p1, p2, collect(DISTINCT c.name) as shared_companies, count(DISTINCT c) as shared_count\n" ++
  "                RETURN\n" ++
  "                    p1.name as focus_person,\n" ++
  "                    p2.name as collaborator,\n" ++
  "                    shared_companies,\n" ++
  "                    shared_count\n" ++
  "                ORDER BY shared_count DESC\n" ++
  "                LIMIT 30\n                "

/-- Generic collaboration query of `_cypher_reasoning`. -/
def reasoningCollabQ : String :=
  "\n            MATCH (a:Person)-[:WORKED_AT]->(c:Company)<-[:WORKED_AT]-(b:Person)\n" ++
  "            WHERE a.name < b.name\n" ++
  "            WITH a, b, collect(DISTINCT c.name) as shared_companies, count(DISTINCT c) as shared_count\n" ++
  "            WHERE shared_count >= 1\n" ++
  "            RETURN a.name as person_a, b.name as person_b, shared_companies, shared_count\n" ++
  "            ORDER BY shared_count DESC\n" ++
  "            LIMIT 30\n            "

/-- University-top-performer query of `_cypher_reasoning`. -/
def reasoningUniTopQ : String :=
  "\n            MATCH (tp:Person)-[:STUDIED_AT]->(u:University)\n" ++
  "            WHERE coalesce(tp.performance_score,0) >= 8.0\n" ++
  "            MATCH (p:Person)-[:STUDIED_AT]->(u)\n" ++
  "            WHERE p.name <> tp.name\n" ++
  "            RETURN\n" ++
  "                tp.name as top_performer,\n" ++
  "                coalesce(tp.performance_score,0) as top_score,\n" ++
  "                p.name as colleague,\n" ++
  "                coalesce(p.performance_score,0) as colleague_score,\n" ++
  "                u.name as shared_university\n" ++
  "            ORDER BY top_score DESC, colleague_score DESC\n" ++
  "            LIMIT 50\n            "

/-- University-pair query of `_cypher_reasoning`. -/
def reasoningUniPairQ : String :=
  "\n            MATCH (a:Person)-[:STUDIED_AT]->(u:University)<-[:STUDIED_AT]-(b:Person)\n" ++
  "            WHERE a.name < b.name\n" ++
  "            RETURN a.name as developer_1, b.name as developer_2, u.name as shared_university\n" ++
  "            LIMIT 30\n            "

/-- `_cypher_reasoning`. -/
def cypher_reasoning (plan : QueryPlan) : String × Params :=
  let kind := strLower (if plan.reasoning.kind == "" then "collab" else plan.reasoning.kind)
  if kind == "collab_success" then (reasoningCollabSuccessQ, [])
  else if kind == "collab" then
    if truthyS plan.reasoning.focus_person then
      (reasoningCollabFocusQ, [("name", PValue.str (plan.reasoning.focus_person.getD ""))])
    else (reasoningCollabQ, [])
  else if kind == "uni_top" then (reasoningUniTopQ, [])
  else if kind == "uni_pair" then (reasoningUniPairQ, [])
  else ("MATCH (n) RETURN n LIMIT 5", [])

/-- `_cypher_temporal`. -/
def cypher_temporal (plan : QueryPlan) (today : PyDate) : String × Params :=
  let window := window_from_availability plan.availability today
  if plan.availability.type == "after_end" then
    ("MATCH (p:Person)-[r:ASSIGNED_TO]->(proj:Project)\n" ++
     "WHERE coalesce(r.end_date, proj.end_date) IS NOT NULL\n" ++
     "WITH p, proj, r, coalesce(r.end_date, proj.end_date) as avail_date, coalesce(r.allocation_percentage, coalesce(r.allocation,0.0)) as alloc\n" ++
     "WITH p, proj, avail_date, sum(alloc) as load_at_end\n" ++
     "RETURN p.name as name, coalesce(proj.title, proj.name) as current_project, avail_date as available_from, " ++
     "round((1.0 - coalesce(load_at_end,0.0))*100,0) as availability_percent\n" ++
     "ORDER BY available_from ASC LIMIT 30", [])
  else
    let base := "MATCH (p:Person)\n" ++ base_load_cte
    let step : String × Params :=
      match window with
      | some w =>
          (base ++ "WITH p, load, latest_end\n" ++
           "WHERE coalesce(load,0) < 1.0 OR (latest_end IS NOT NULL AND date(latest_end) <= date($start))\n",
           [("start", PValue.str w.1), ("end", PValue.str w.2)])
      | none => (base ++ "WITH p, load, latest_end WHERE coalesce(load,0) < 1.0\n", [])
    (step.1 ++
     "RETURN p.name as name, p.role as role, round((1.0 - coalesce(load,0))*100,0) as availability_percent, latest_end as available_from\n" ++
     "ORDER BY availability_percent DESC LIMIT 30", step.2)

/-- Skills-gap query of `_cypher_scenario`. -/
def scenarioGapQ : String :=
  "MATCH (pr:Project)-[:REQUIRES]->(s:Skill) WHERE toLower(coalesce(pr.status,\x27\x27))=\x27new rfp\x27\n" ++
  "WITH collect(DISTINCT toLower(coalesce(s.id,s.name,\x27\x27))) as required_skills\n" ++
  "MATCH (p:Person)\n" ++
  "OPTIONAL MATCH (p)-[a:ASSIGNED_TO]->(proj:Project)\n" ++
  "WITH required_skills, p, sum(coalesce(a.allocation_percentage, a.allocation, 0.0)) as load\n" ++
  "WHERE coalesce(load,0) < 1.0\n" ++
  "OPTIONAL MATCH (p)-[:HAS_SKILL]->(s:Skill)\n" ++
  "WITH required_skills, collect(DISTINCT toLower(coalesce(s.id,s.name,\x27\x27))) as available_skills\n" ++
  "RETURN required_skills, available_skills, [x IN required_skills WHERE NOT x IN available_skills] as missing_skills"

/-- Single-point-of-failure risk query of `_cypher_risk_spof`. -/
def riskSpofQ : String :=
  "MATCH (p:Person)-[:HAS_SKILL]->(s:Skill)\n" ++
  "WITH toLower(trim(coalesce(s.id, s.name, \x27\x27))) as skill, collect(DISTINCT p) as owners\n" ++
  "WHERE skill <> \x27\x27 AND size(owners) = 1\n" ++
  "WITH skill, owners[0] as owner\n" ++
  "OPTIONAL MATCH (owner)-[r:ASSIGNED_TO]->(proj:Project)\n" ++
  "WITH skill, owner,\n" ++
  "     sum(coalesce(r.allocation_percentage, coalesce(r.allocation, 0.0))) as load,\n" ++
  "     collect(\x7btitle: coalesce(proj.title, proj.name),\n" ++
  "              allocation: coalesce(r.allocation_percentage, coalesce(r.allocation, 0.0)),\n" ++
  "              end_date: coalesce(r.end_date, proj.end_date)\x7d) as projects\n" ++
  "WITH skill, owner, coalesce(load, 0.0) as load, projects,\n" ++
  "     round((1.0 - coalesce(load, 0.0)) * 100, 0) as availability_percent\n" ++
  "WITH skill, owner, load, availability_percent, projects,\n" ++
  "     CASE WHEN load >= $HIGH THEN \x27HIGH\x27\n" ++
  "          WHEN load >= $MED THEN \x27MEDIUM\x27\n" ++
  "          ELSE \x27LOW\x27 END as risk_level,\n" ++
  "     CASE WHEN load >= $HIGH THEN 3 WHEN load >= $MED THEN 2 ELSE 1 END as risk_rank\n" ++
  "RETURN skill, owner.name as owner_name, load, availability_percent, risk_level, projects\n" ++
  "ORDER BY risk_rank DESC, load DESC, skill ASC\n" ++
  "LIMIT 50"

/-- `_cypher_risk_spof`. -/
def cypher_risk_spof (_plan : QueryPlan) : String × Params :=
  (riskSpofQ, [("HIGH", PValue.num RISK_HIGH_THRESHOLD), ("MED", PValue.num RISK_MED_THRESHOLD)])

/-- RFP-driven team-optimisation query of `_cypher_scenario`. -/
def scenarioTeamRfpQ : String :=
  "\n            MATCH (r:RFP)\n" ++
  "            WHERE toLower(coalesce(r.title, r.name, r.description, \x27\x27)) CONTAINS toLower($rfp_kw)\n" ++
  "            OPTIONAL MATCH (r)-[:NEEDS]->(req:Skill)\n" ++
  "            WITH r, collect(DISTINCT toLower(coalesce(req.id, req.name, \x27\x27))) AS required_skills\n" ++
  "            WHERE size(required_skills) > 0\n" ++
  "\n" ++
  "            MATCH (p:Person)\n" ++
  "            OPTIONAL MATCH (p)-[a:ASSIGNED_TO]->(:Project)\n" ++
  "            WITH r, required_skills, p,\n" ++
  "                sum(coalesce(a.allocation_percentage, a.allocation, 0.0)) AS load\n" ++
  "            WHERE (1.0 - coalesce(load,0.0)) >= $alloc\n" ++
  "\n" ++
  "            OPTIONAL MATCH (p)-[:HAS_SKILL]->(ps:Skill)\n" ++
  "            WITH r, required_skills, p, load,\n" ++
  "                collect(DISTINCT toLower(coalesce(ps.id, ps.name, \x27\x27))) AS person_skills\n" ++
  "\n" ++
  "            WITH r, required_skills, p, load,\n" ++
  "                [s IN required_skills WHERE s IN person_skills] AS matched,\n" ++
  "                [s IN required_skills WHERE NOT s IN person_skills] AS missing\n" ++
  "\n" ++
  "            RETURN\n" ++
  "            r.title AS rfp_title,\n" ++
  "            r.budget AS rfp_budget,\n" ++
  "            required_skills,\n" ++
  "            p.name AS name,\n" ++
  "            p.role AS role,\n" ++
  "            p.rate AS rate,\n" ++
  "            round((1.0 - coalesce(load,0.0)) * 100, 0) AS availability_percent,\n" ++
  "            matched,\n" ++
  "            missing,\n" ++
  "            size(matched) AS matched_count,\n" ++
  "            size(missing) AS missing_count\n" ++
  "            ORDER BY missing_count ASC, matched_count DESC, rate ASC\n" ++
  "            LIMIT 200\n            "

/-- Generic team-optimisation query of `_cypher_scenario`. -/
def scenarioTeamGenericQ : String :=
  "MATCH (p:Person)-[:HAS_SKILL]->(s:Skill)\n" ++
  "WHERE $skills = [] OR toLower(coalesce(s.id,s.name,\x27\x27)) IN $skills\n" ++
  "WITH p, collect(DISTINCT toLower(coalesce(s.id,s.name,\x27\x27))) as skill_list\n" ++
  "OPTIONAL MATCH (p)-[r:ASSIGNED_TO]->(proj:Project)\n" ++
  "WITH p, skill_list, sum(coalesce(r.allocation_percentage, coalesce(r.allocation,0.0))) as load, max(coalesce(r.end_date, proj.end_date)) as latest_end\n" ++
  "WHERE coalesce(load,0) + $alloc <= 1.0 AND coalesce(p.rate,0) <= $max_rate\n" ++
  "RETURN p.name as name, p.role as role, p.rate as rate, coalesce(p.years_experience, p.years_of_experience) as years_exp,\n" ++
  "       round((1.0 - coalesce(load,0))*100,0) as availability_percent, skill_list\n" ++
  "ORDER BY rate ASC, availability_percent DESC LIMIT $limit"

/-- `_cypher_scenario`. -/
def cypher_scenario (plan : QueryPlan) : String × Params :=
  if plan.scenario.kind == "gap" then (scenarioGapQ, [])
  else if plan.scenario.kind == "risk" then cypher_risk_spof plan
  else if plan.scenario.kind == "team_opt" && truthyS plan.rfp_keyword then
    (scenarioTeamRfpQ,
     [("rfp_kw", PValue.str (plan.rfp_keyword.getD "")),
      ("alloc", PValue.num (orQ plan.team.allocation 1))])
  else
    let teamSize := orN plan.team.size 5
    let alloc := orQ plan.team.allocation 1
    (scenarioTeamGenericQ,
     [("skills", PValue.strList (plan.skills.map strLower)),
      ("max_rate", PValue.num (match plan.budget.max_rate with
        | some r => if r = 0 then 1000000 else r
        | none => 1000000)),
      ("alloc", PValue.num alloc),
      ("limit", PValue.nat (teamSize * 3))])

/-- `_build_cypher_from_plan`: dispatch over the six categories. -/
def build_cypher_from_plan (plan : QueryPlan) (today : PyDate) :
    Option (String × Params) :=
  if plan.query_type == "counting" then some (cypher_counting plan today)
  else if plan.query_type == "filtering" then some (cypher_filtering plan today)
  else if plan.query_type == "aggregation" then some (cypher_aggregation plan today)
  else if plan.query_type == "reasoning" then some (cypher_reasoning plan)
  else if plan.query_type == "temporal" then some (cypher_temporal plan today)
  else if plan.query_type == "scenario" then some (cypher_scenario plan)
  else none

/-! ### Classifier (`classify_query`) -/

/-- The ordered keyword rule table of `classify_query`'s deterministic part,
in source order: counting, aggregation, reasoning, temporal, scenario,
filtering. -/
def classifyRules : List (List String × String) :=
  [(["how many", "count ", "count(", "number of"], "counting"),
   (["average", "avg", "total ", "sum", "stats", "distribution"], "aggregation"),
   (["worked together", "worked with", "same university", "relationship",
     "network"], "reasoning"),
   (["available", "availability", "next month", "this month", "q1", "q2",
     "q3", "q4", "after", "becomes available", "end date"], "temporal"),
   (["optimal team", "suggest a team", "suggest an optimal team", "what if",
     "simulate", "gap analysis", "skills gaps", "risk assessment",
     "single points of failure"], "scenario"),
   (["find ", "list ", "show ", "who knows", "developers with",
     "engineers with"], "filtering")]

/-- First-match evaluation of the rule table on the processed question. -/
def firstRuleMatch (q : List Nat) : List (List String × String) → Option String
  | [] => none
  | (kws, cat) :: rest =>
      if kws.any (fun k => hasInfixC q (codes k)) then some cat
      else firstRuleMatch q rest

/-- Deterministic part of `classify_query`: lowercase and strip the
question, then try the six keyword rules in priority order. -/
def classify_heuristic (question : String) : Option String :=
  firstRuleMatch (pyStripC (lowC (codes question))) classifyRules

/-- ASCII uppercasing of one character code, as Python `str.upper()`. -/
def upCode (n : Nat) : Nat := if 97 ≤ n && n ≤ 122 then n - 32 else n

/-- Python `s.upper()` on a code list. -/
def upC (s : List Nat) : List Nat := s.map upCode

/-- Category token mapping applied to the language-model response. -/
def llmCategoryMapping : List (String × String) :=
  [("COUNTING", "counting"), ("FILTERING", "filtering"),
   ("AGGREGATION", "aggregation"), ("REASONING", "reasoning"),
   ("TEMPORAL", "temporal"), ("SCENARIO", "scenario")]

/-- The language-model fallback of `classify_query`: `none` models a raised
exception; a response is stripped, uppercased, and matched against the six
category tokens in order; anything else resolves to `"scenario"`. -/
def llm_fallback_category (resp : Option String) : String :=
  match resp with
  | none => "scenario"
  | some content =>
      let cat := upC (pyStripC (codes content))
      match llmCategoryMapping.find? (fun kv => hasInfixC cat (codes kv.1)) with
      | some kv => kv.2
      | none => "scenario"

/-- `classify_query`, with the language model supplied as an oracle value
(`none` = transport failure / raised exception). -/
def classify_query (question : String) (llmResp : Option String) : String :=
  match classify_heuristic question with
  | some c => c
  | none => llm_fallback_category llmResp

/-! ### Graph snapshot and the semantics of the scenario/reasoning queries -/

/-- A Skill node; `id` and `name` properties may be absent. -/
structure SkillNode where
  id : Option String := none
  name : Option String := none
deriving DecidableEq, Repr

/-- An `ASSIGNED_TO` relationship with its target Project's fields. -/
structure Assignment where
  person : String
  allocation_percentage : Option ℚ := none
  allocation : Option ℚ := none
  r_end_date : Option String := none
  proj_title : Option String := none
  proj_name : Option String := none
  proj_end_date : Option String := none
deriving DecidableEq, Repr

/-- A read-only graph snapshot: the node/relationship lists consumed by the
scenario and reasoning queries. `requiresEdges` pairs each `REQUIRES` edge
with the source project's `status`. -/
structure Graph where
  persons : List String := []
  hasSkill : List (String × SkillNode) := []
  assigned : List Assignment := []
  workedAt : List (String × String) := []
  studiedAt : List (String × String) := []
  requiresEdges : List (Option String × SkillNode) := []
deriving DecidableEq, Repr

/-- First-occurrence deduplication (`collect(DISTINCT ...)`). -/
def dedupFirstAux [DecidableEq α] (seen : List α) : List α → List α
  | [] => []
  | x :: xs =>
      if x ∈ seen then dedupFirstAux seen xs
      else x :: dedupFirstAux (x :: seen) xs

/-- First-occurrence deduplication of a list. -/
def dedupFirst [DecidableEq α] (l : List α) : List α := dedupFirstAux [] l

/-- Cypher `coalesce` on two optional values. -/
def coalesceO (x y : Option α) : Option α :=
  match x with
  | some v => some v
  | none => y

/-- Cypher `coalesce(s.id, s.name, '')`. -/
def skillRaw (s : SkillNode) : String := s.id.getD (s.name.getD "")

/-- Risk grouping key `toLower(trim(coalesce(s.id, s.name, '')))`. -/
def riskSkillKey (s : SkillNode) : String := strLower (strStrip (skillRaw s))

/-- Gap skill value `toLower(coalesce(s.id, s.name, ''))`. -/
def gapSkillKey (s : SkillNode) : String := strLower (skillRaw s)

/-- Allocation of one assignment:
`coalesce(r.allocation_percentage, coalesce(r.allocation, 0.0))`. -/
def allocVal (a : Assignment) : ℚ := a.allocation_percentage.getD (a.allocation.getD 0)

/-- Current load of a person: sum of allocations over their assignments. -/
def loadOf (g : Graph) (p : String) : ℚ :=
  ((g.assigned.filter (fun a => a.person == p)).map allocVal).sum

/-- Cypher `round(x, 0)`. -/
def qRound0 (x : ℚ) : ℚ := (⌊x + 1 / 2⌋ : ℚ)

/-- Owners (`collect(DISTINCT p)`) of a normalised skill key. -/
def ownersOf (g : Graph) (key : String) : List String :=
  dedupFirst ((g.hasSkill.filter (fun e => riskSkillKey e.2 == key)).map Prod.fst)

/-- Distinct normalised skill keys in first-occurrence order. -/
def skillKeys (g : Graph) : List String :=
  dedupFirst (g.hasSkill.map (fun e => riskSkillKey e.2))

/-- One entry of the `projects` column of the risk query. -/
structure ProjEntry where
  title : Option String
  allocation : ℚ
  end_date : Option String
deriving DecidableEq, Repr

/-- Projects collected for an owner; the optional match over no assignment
contributes a single all-null entry. -/
def projectsOf (g : Graph) (p : String) : List ProjEntry :=
  match g.assigned.filter (fun a => a.person == p) with
  | [] => [⟨none, 0, none⟩]
  | l => l.map (fun a =>
      ⟨coalesceO a.proj_title a.proj_name, allocVal a,
       coalesceO a.r_end_date a.proj_end_date⟩)

/-- `CASE WHEN load >= $HIGH THEN 'HIGH' WHEN load >= $MED THEN 'MEDIUM'
ELSE 'LOW' END`. -/
def riskLevelOf (load : ℚ) : String :=
  if load ≥ RISK_HIGH_THRESHOLD then "HIGH"
  else if load ≥ RISK_MED_THRESHOLD then "MEDIUM"
  else "LOW"

/-- `CASE WHEN load >= $HIGH THEN 3 WHEN load >= $MED THEN 2 ELSE 1 END`. -/
def riskRankOf (load : ℚ) : Nat :=
  if load ≥ RISK_HIGH_THRESHOLD then 3
  else if load ≥ RISK_MED_THRESHOLD then 2
  else 1

/-- A row of the SPOF risk query. -/
structure RiskRow where
  skill : String
  owner_name : String
  load : ℚ
  availability_percent : ℚ
  risk_level : String
  risk_rank : Nat
  projects : List ProjEntry
deriving DecidableEq, Repr

/-- Row built for a single-owner skill. -/
def riskRowOf (g : Graph) (key : String) (owner : String) : RiskRow :=
  let load := loadOf g owner
  { skill := key, owner_name := owner, load := load,
    availability_percent := qRound0 ((1 - load) * 100),
    risk_level := riskLevelOf load, risk_rank := riskRankOf load,
    projects := projectsOf g owner }

/-- Grouped and filtered rows of the SPOF query
(`WHERE skill <> '' AND size(owners) = 1`), before ordering. -/
def risk_spof_rows (g : Graph) : List RiskRow :=
  (skillKeys g).filterMap (fun key =>
    if key == "" then none
    else match ownersOf g key with
      | [owner] => some (riskRowOf g key owner)
      | _ => none)

/-- `ORDER BY risk_rank DESC, load DESC, skill ASC`. -/
def riskLE (r1 r2 : RiskRow) : Bool :=
  if r1.risk_rank = r2.risk_rank then
    (if r1.load = r2.load then decide (r1.skill ≤ r2.skill)
     else decide (r2.load < r1.load))
  else decide (r2.risk_rank < r1.risk_rank)

/-- Result rows of the SPOF risk query (`LIMIT 50`). -/
def risk_spof_result (g : Graph) : List RiskRow :=
  ((risk_spof_rows g).mergeSort riskLE).take 50

/-- Required skills of the gap query: distinct normalised skills required by
projects whose status is `new rfp`. -/
def required_skills (g : Graph) : List String :=
  dedupFirst ((g.requiresEdges.filter
      (fun e => strLower (e.1.getD "") == "new rfp")).map
    (fun e => gapSkillKey e.2))

/-- Persons with spare capacity (`WHERE coalesce(load,0) < 1.0`). -/
def sparePersons (g : Graph) : List String :=
  g.persons.filter (fun p => decide (loadOf g p < 1))

/-- Skill values contributed by one person under the optional skill match;
a person without skills contributes the single value `""` (the null row). -/
def personSkillVals (g : Graph) (p : String) : List String :=
  match (g.hasSkill.filter (fun e => e.1 == p)).map (fun e => gapSkillKey e.2) with
  | [] => [""]
  | l => l

/-- Available skills of the gap query: distinct normalised skills of people
with spare capacity. -/
def available_skills (g : Graph) : List String :=
  dedupFirst (((sparePersons g).map (personSkillVals g)).flatten)

/-- `missing_skills`: `[x IN required_skills WHERE NOT x IN available_skills]`. -/
def missing_skills (g : Graph) : List String :=
  (required_skills g).filter (fun x => !(available_skills g).contains x)

/-- The single result row of the gap scenario query. -/
def scenario_gap_result (g : Graph) : List String × List String × List String :=
  (required_skills g, available_skills g, missing_skills g)

/-- A row of the generic collaboration query. -/
structure CollabRow where
  person_a : String
  person_b : String
  shared_companies : List String
  shared_count : Nat
deriving DecidableEq, Repr

/-- Ordered person pairs of the 2-hop collaboration pattern under the
canonical ordering `a.name < b.name`, grouped (one key per pair). -/
def collabPairs (g : Graph) : List (String × String) :=
  dedupFirst ((g.workedAt.map (fun e1 =>
    g.workedAt.filterMap (fun e2 =>
      if e1.2 == e2.2 && decide (e1.1 < e2.1) then some (e1.1, e2.1)
      else none))).flatten)

/-- `collect(DISTINCT c.name)` for a pair. -/
def sharedCompaniesOf (g : Graph) (a b : String) : List String :=
  dedupFirst ((g.workedAt.filter
      (fun e => e.1 == a && (g.workedAt.contains (b, e.2)))).map Prod.snd)

/-- Row of the collaboration query for one canonical pair. -/
def collabRowOf (g : Graph) (p : String × String) : CollabRow :=
  ⟨p.1, p.2, sharedCompaniesOf g p.1 p.2, (sharedCompaniesOf g p.1 p.2).length⟩

/-- `ORDER BY shared_count DESC`. -/
def collabLE (r1 r2 : CollabRow) : Bool := decide (r2.shared_count ≤ r1.shared_count)

/-- Result of the generic collaboration query
(`WHERE shared_count >= 1`, `ORDER BY shared_count DESC`, `LIMIT 30`). -/
def reasoning_collab_result (g : Graph) : List CollabRow :=
  ((((collabPairs g).map (collabRowOf g)).filter
      (fun r => decide (1 ≤ r.shared_count))).mergeSort collabLE).take 30

/-- A row of the university-pair query. -/
structure UniPairRow where
  developer_1 : String
  developer_2 : String
  shared_university : String
deriving DecidableEq, Repr

/-- Result of the university-pair query: one row per matched triple under
the canonical ordering `a.name < b.name` (no aggregation), `LIMIT 30`. -/
def reasoning_uni_pair_result (g : Graph) : List UniPairRow :=
  ((g.studiedAt.map (fun e1 =>
    g.studiedAt.filterMap (fun e2 =>
      if e1.2 == e2.2 && decide (e1.1 < e2.1) then
        some (⟨e1.1, e2.1, e1.2⟩ : UniPairRow)
      else none))).flatten).take 30

/-! ### Greedy team composition (`_format_answer`, `team_opt` branch) -/

/-- A candidate row consumed by the team-composition logic. -/
structure Candidate where
  name : String
  role : String
  matched : List String
  availability_percent : ℚ
  rate : ℚ
deriving DecidableEq, Repr

/-- Deduplication step: keep the first row per name. -/
def uniqueByName (seen : List String) : List Candidate → List Candidate
  | [] => []
  | r :: rs =>
      if r.name ∈ seen then uniqueByName seen rs
      else r :: uniqueByName (r.name :: seen) rs

/-- Per-role sort key: most matched skills, then highest availability, then
lowest rate. -/
def candLE (x y : Candidate) : Bool :=
  if x.matched.length = y.matched.length then
    (if x.availability_percent = y.availability_percent then decide (x.rate ≤ y.rate)
     else decide (y.availability_percent < x.availability_percent))
  else decide (y.matched.length < x.matched.length)

/-- Greedy selection: for each role in turn append the best candidate of
that role, stopping once five are selected. -/
def greedyGo (rows : List Candidate) : List String → Nat → List Candidate
  | [], _ => []
  | role :: rest, n =>
      match (rows.filter (fun r => r.role == role)).mergeSort candLE with
      | [] => []
      | best :: _ => if n + 1 ≥ 5 then [best] else best :: greedyGo rows rest (n + 1)

/-- The team-composition step of `_format_answer` on `team_opt` rows:
deduplicate by name, group by role, then greedily pick the best candidate
per role (roles in ascending order) up to five. -/
def selected_team (rows : List Candidate) : List Candidate :=
  let uniq := uniqueByName [] rows
  let roles := (dedupFirst (uniq.map (fun r => r.role))).mergeSort
    (fun a b => decide (a ≤ b))
  greedyGo uniq roles 0

/-! ### Lemmas about the string primitives -/

theorem natBeq_eq (p q : Nat) : Nat.beq p q = (p == q) := by
  cases hb : Nat.beq p q
  · have hne : p ≠ q := fun he => by
      rw [he, Nat.beq_refl] at hb
      exact Bool.noConfusion hb
    simp [hne]
  · have he := Nat.eq_of_beq_eq_true hb
    simp [he]

theorem isPrefC_iff : ∀ p s : List Nat, isPrefC p s = true ↔ p <+: s
  | [], s => by simp [isPrefC]
  | p :: ps, [] => by simp [isPrefC]
  | p :: ps, c :: cs => by
      simp only [isPrefC, Bool.and_eq_true, beq_iff_eq, isPrefC_iff ps cs,
        List.cons_prefix_cons]

theorem hasInfixC_iff : ∀ s p : List Nat, hasInfixC s p = true ↔ p <:+: s
  | [], p => by
      simp [hasInfixC, isPrefC_iff, List.infix_nil, List.prefix_nil]
  | c :: rest, p => by
      simp only [hasInfixC, Bool.or_eq_true, isPrefC_iff, hasInfixC_iff rest p]
      exact Iff.symm
        (List.infix_cons_iff : p <:+: c :: rest ↔ p <+: c :: rest ∨ p <:+: rest)

theorem isPrefLowN_eq : ∀ p s : List Nat, isPrefLowN p s = isPrefC p (lowC s)
  | [], [] => rfl
  | [], _ :: _ => rfl
  | _ :: _, [] => rfl
  | p :: ps, c :: cs => by
      show Bool.and (Nat.beq p (lowCode c)) (isPrefLowN ps cs) = _
      rw [isPrefLowN_eq ps cs]
      simp only [lowC, List.map_cons, isPrefC]
      rw [natBeq_eq]

theorem isPrefC_false_of_forbAt {lc : Nat} {rest : List Nat} (k : Nat)
    (tail : List Nat)
    (h : Nat.beq lc k = true → isPrefLowN tail rest = false) :
    isPrefC (k :: tail) (lc :: lowC rest) = false := by
  show (k == lc && isPrefC tail (lowC rest)) = false
  rw [← isPrefLowN_eq]
  by_cases hk : Nat.beq lc k = true
  · rw [h hk, Bool.and_false]
  · have hne : k ≠ lc := fun he => hk (by simp [he])
    simp [hne]

theorem forbAt_imp {lc : Nat} {rest : List Nat} (h : forbAt lc rest = false) :
    ∀ f ∈ pats16, isPrefC (codes f) (lc :: lowC rest) = false := by
  intro f hf
  have hA : ∀ (k : Nat) (tail : List Nat),
      (Nat.beq lc k = true → isPrefLowN tail rest = false) →
      isPrefC (k :: tail) (lc :: lowC rest) = false :=
    fun k tail hh => isPrefC_false_of_forbAt k tail hh
  fin_cases hf
  · rw [show codes "create" = 99 :: pReate from rfl]
    refine hA 99 pReate (fun hk => ?_)
    have hlc := Nat.eq_of_beq_eq_true hk
    subst hlc
    unfold forbAt at h
    simp at h
    tauto
  · rw [show codes "merge" = 109 :: pErge from rfl]
    refine hA 109 pErge (fun hk => ?_)
    have hlc := Nat.eq_of_beq_eq_true hk
    subst hlc
    unfold forbAt at h
    simp at h
    tauto
  · rw [show codes "set" = 115 :: pEt from rfl]
    refine hA 115 pEt (fun hk => ?_)
    have hlc := Nat.eq_of_beq_eq_true hk
    subst hlc
    unfold forbAt at h
    simp at h
    tauto
  · rw [show codes "delete" = 100 :: pElete from rfl]
    refine hA 100 pElete (fun hk => ?_)
    have hlc := Nat.eq_of_beq_eq_true hk
    subst hlc
    unfold forbAt at h
    simp at h
    tauto
  · rw [show codes "detach" = 100 :: pEtach from rfl]
    refine hA 100 pEtach (fun hk => ?_)
    have hlc := Nat.eq_of_beq_eq_true hk
    subst hlc
    unfold forbAt at h
    simp at h
    tauto
  · rw [show codes "drop" = 100 :: pRop from rfl]
    refine hA 100 pRop (fun hk => ?_)
    have hlc := Nat.eq_of_beq_eq_true hk
    subst hlc
    unfold forbAt at h
    simp at h
    tauto
  · rw [show codes "remove" = 114 :: pEmove from rfl]
    refine hA 114 pEmove (fun hk => ?_)
    have hlc := Nat.eq_of_beq_eq_true hk
    subst hlc
    unfold forbAt at h
    simp at h
    tauto
  · rw [show codes "call" = 99 :: pAll from rfl]
    refine hA 99 pAll (fun hk => ?_)
    have hlc := Nat.eq_of_beq_eq_true hk
    subst hlc
    unfold forbAt at h
    simp at h
    tauto
  · rw [show codes "load csv" = 108 :: pOadcsv from rfl]
    refine hA 108 pOadcsv (fun hk => ?_)
    have hlc := Nat.eq_of_beq_eq_true hk
    subst hlc
    unfold forbAt at h
    simp at h
    tauto
  · rw [show codes "periodic" = 112 :: pEriodic from rfl]
    refine hA 112 pEriodic (fun hk => ?_)
    have hlc := Nat.eq_of_beq_eq_true hk
    subst hlc
    unfold forbAt at h
    simp at h
    tauto
  · rw [show codes "foreach" = 102 :: pOreach from rfl]
    refine hA 102 pOreach (fun hk => ?_)
    have hlc := Nat.eq_of_beq_eq_true hk
    subst hlc
    unfold forbAt at h
    simp at h
    tauto
  · rw [show codes "dbms" = 100 :: pBms from rfl]
    refine hA 100 pBms (fun hk => ?_)
    have hlc := Nat.eq_of_beq_eq_true hk
    subst hlc
    unfold forbAt at h
    simp at h
    tauto
  · rw [show codes "admin" = 97 :: pDmin from rfl]
    refine hA 97 pDmin (fun hk => ?_)
    have hlc := Nat.eq_of_beq_eq_true hk
    subst hlc
    unfold forbAt at h
    simp at h
    tauto
  · rw [show codes "schema" = 115 :: pChema from rfl]
    refine hA 115 pChema (fun hk => ?_)
    have hlc := Nat.eq_of_beq_eq_true hk
    subst hlc
    unfold forbAt at h
    simp at h
    tauto
  · rw [show codes "apoc" = 97 :: pPoc from rfl]
    refine hA 97 pPoc (fun hk => ?_)
    have hlc := Nat.eq_of_beq_eq_true hk
    subst hlc
    unfold forbAt at h
    simp at h
    tauto
  · rw [show codes "gds" = 103 :: pDs from rfl]
    refine hA 103 pDs (fun hk => ?_)
    have hlc := Nat.eq_of_beq_eq_true hk
    subst hlc
    unfold forbAt at h
    simp at h
    tauto

theorem scanForb_correct : ∀ s : List Nat, scanForb s = true →
    ∀ f ∈ pats16, hasInfixC (lowC s) (codes f) = false
  | [], _, f, hf => by fin_cases hf <;> rfl
  | c :: rest, h, f, hf => by
      have h' : forbAt (lowCode c) rest = false ∧ scanForb rest = true := by
        simpa [scanForb] using h
      show (isPrefC (codes f) (lowCode c :: lowC rest) ||
        hasInfixC (lowC rest) (codes f)) = false
      rw [forbAt_imp h'.1 f hf, scanForb_correct rest h'.2 f hf]
      rfl

theorem pyStripC_isInfix (s : List Nat) : pyStripC s <:+: s := by
  have h1 : s.dropWhile wsCode <:+ s := List.dropWhile_suffix wsCode
  have h2 : (s.dropWhile wsCode).reverse.dropWhile wsCode <:+
      (s.dropWhile wsCode).reverse := List.dropWhile_suffix wsCode
  have h3 : ((s.dropWhile wsCode).reverse.dropWhile wsCode).reverse <+:
      s.dropWhile wsCode := by
    refine List.reverse_suffix.mp ?_
    rwa [List.reverse_reverse]
  exact List.IsInfix.trans h3.isInfix h1.isInfix

theorem wsCode_lowCode (n : Nat) : wsCode (lowCode n) = wsCode n := by
  unfold lowCode
  by_cases h : (65 ≤ n && n ≤ 90) = true
  · rw [if_pos h]
    have h' : 65 ≤ n := by
      have h2 := (Bool.and_eq_true _ _).mp h
      simpa using h2.1
    have e1 : wsCode (n + 32) = false := by
      simp only [wsCode, Bool.or_eq_false_iff, beq_eq_false_iff_ne, ne_eq]
      omega
    have e2 : wsCode n = false := by
      simp only [wsCode, Bool.or_eq_false_iff, beq_eq_false_iff_ne, ne_eq]
      omega
    rw [e1, e2]
  · rw [if_neg h]

theorem lowC_pyStripC (s : List Nat) : lowC (pyStripC s) = pyStripC (lowC s) := by
  have hcomp : (wsCode ∘ lowCode) = wsCode := funext wsCode_lowCode
  unfold pyStripC lowC
  rw [List.dropWhile_map, hcomp, ← List.map_reverse, List.dropWhile_map, hcomp,
    ← List.map_reverse]

/-- The head of the pattern exists and is not whitespace. -/
def headNonWs (p : List Nat) : Bool :=
  match p with
  | [] => false
  | a :: _ => !wsCode a

theorem infix_dropWhile {p : List Nat} (hh : headNonWs p = true) :
    ∀ s : List Nat, p <:+: s → p <:+: s.dropWhile wsCode := by
  intro s
  induction s with
  | nil => intro h; simpa using h
  | cons c rest ih =>
      intro h
      rcases List.infix_cons_iff.mp h with hpre | hinf
      · match p, hh, hpre with
        | a :: p', hh', hpre' =>
            have hac := (List.cons_prefix_cons.mp hpre').1
            have hws : ¬(wsCode c = true) := by
              rw [← hac]
              simpa [headNonWs] using hh'
            rw [List.dropWhile_cons, if_neg hws]
            exact hpre'.isInfix
      · by_cases hc : wsCode c = true
        · rw [List.dropWhile_cons, if_pos hc]
          exact ih hinf
        · rw [List.dropWhile_cons, if_neg hc]
          exact List.IsInfix.trans hinf (List.suffix_cons c rest).isInfix

theorem infix_pyStripC {p s : List Nat} (hh : headNonWs p = true)
    (hl : headNonWs p.reverse = true)
    (h : p <:+: s) : p <:+: pyStripC s := by
  have h1 : p <:+: s.dropWhile wsCode := infix_dropWhile hh s h
  have h2 : p.reverse <:+: (s.dropWhile wsCode).reverse :=
    List.reverse_infix.mpr h1
  have h3 : p.reverse <:+: ((s.dropWhile wsCode).reverse).dropWhile wsCode :=
    infix_dropWhile hl _ h2
  have h4 := List.reverse_infix.mpr h3
  rwa [List.reverse_reverse] at h4

theorem validators_true_of_checks (Q : String)
    (hscan : scanForb (codes Q) = true)
    (hs1 : (["match", "with", "return"].any
      (fun kw => matchWordStartC (pyStripC (codes Q)) (codes kw))) = true)
    (hs2 : (["match", "with", "return", "optional match"].any
      (fun a => isPrefC (codes a) (pyStripC (lowC (codes Q))))) = true) :
    is_safe_readonly_cypher Q = true ∧ is_safe_cypher Q = true := by
  have habs : ∀ f ∈ pats16, hasInfixC (lowC (codes Q)) (codes f) = false :=
    scanForb_correct _ hscan
  have habsStrip : ∀ f ∈ pats16,
      hasInfixC (lowC (pyStripC (codes Q))) (codes f) = false := by
    intro f hf
    cases hx : hasInfixC (lowC (pyStripC (codes Q))) (codes f)
    · rfl
    · exfalso
      have hinf : codes f <:+: lowC (pyStripC (codes Q)) := (hasInfixC_iff _ _).mp hx
      have hmono : lowC (pyStripC (codes Q)) <:+: lowC (codes Q) :=
        List.IsInfix.map _ (pyStripC_isInfix _)
      have htru : hasInfixC (lowC (codes Q)) (codes f) = true :=
        (hasInfixC_iff _ _).mpr (hinf.trans hmono)
      rw [habs f hf] at htru
      exact Bool.noConfusion htru
  have hdot : ∀ f g : String, isPrefC (codes g) (codes f) = true →
      ∀ X : List Nat, hasInfixC X (codes g) = false → hasInfixC X (codes f) = false := by
    intro f g hpre X hX
    cases hx : hasInfixC X (codes f)
    · rfl
    · exfalso
      have h1 : codes f <:+: X := (hasInfixC_iff _ _).mp hx
      have h2 : codes g <+: codes f := (isPrefC_iff _ _).mp hpre
      have h3 : hasInfixC X (codes g) = true :=
        (hasInfixC_iff _ _).mpr (List.IsInfix.trans h2.isInfix h1)
      rw [hX] at h3
      exact Bool.noConfusion h3
  have hcne : pyStripC (codes Q) ≠ [] := by
    intro hceq
    rw [hceq] at hs1
    exact absurd hs1 (by decide)
  constructor
  · simp only [is_safe_readonly_cypher]
    rw [if_neg hcne, hs1]
    have hforb : (forbiddenReadonly.any
        fun f => hasInfixC (lowC (pyStripC (codes Q))) (codes f)) = false := by
      apply List.any_eq_false.mpr
      intro f hf
      simp only [Bool.not_eq_true]
      fin_cases hf
      · exact habsStrip "delete" (by decide)
      · exact habsStrip "detach" (by decide)
      · exact habsStrip "create" (by decide)
      · exact habsStrip "merge" (by decide)
      · exact habsStrip "set" (by decide)
      · exact habsStrip "drop" (by decide)
      · exact habsStrip "remove" (by decide)
      · exact habsStrip "call" (by decide)
      · exact habsStrip "load csv" (by decide)
      · exact hdot "apoc." "apoc" (by decide) _ (habsStrip "apoc" (by decide))
      · exact hdot "gds." "gds" (by decide) _ (habsStrip "gds" (by decide))
      · exact habsStrip "periodic" (by decide)
      · exact habsStrip "foreach" (by decide)
      · exact habsStrip "dbms" (by decide)
      · exact habsStrip "admin" (by decide)
      · exact habsStrip "schema" (by decide)
    rw [hforb]
    simp
  · simp only [is_safe_cypher]
    have hQne : codes Q ≠ [] := by
      intro hq
      rw [hq] at hs2
      exact absurd hs2 (by decide)
    rw [if_neg hQne]
    have hforb2 : (forbiddenBasic.any
        fun f => hasInfixC (lowC (codes Q)) (codes f)) = false := by
      apply List.any_eq_false.mpr
      intro f hf
      simp only [Bool.not_eq_true]
      fin_cases hf
      · exact habs "create" (by decide)
      · exact habs "merge" (by decide)
      · exact habs "set" (by decide)
      · exact habs "delete" (by decide)
      · exact habs "detach" (by decide)
      · exact habs "call" (by decide)
      · exact habs "apoc" (by decide)
      · exact habs "gds" (by decide)
      · exact habs "load csv" (by decide)
      · exact habs "drop" (by decide)
    rw [hforb2]
    simpa using hs2

theorem readonly_rejects_forbidden (s : String) (kw : String)
    (hkw : kw ∈ specBlocklist)
    (hcontain : hasInfixC (lowC (codes s)) (codes kw) = true) :
    is_safe_readonly_cypher s = false := by
  simp only [is_safe_readonly_cypher]
  by_cases hc : pyStripC (codes s) = []
  · rw [if_pos hc]
  · rw [if_neg hc]
    cases hany : (["match", "with", "return"].any
        fun kw => matchWordStartC (pyStripC (codes s)) (codes kw))
    · simp
    · have hforb : (forbiddenReadonly.any
          fun f => hasInfixC (lowC (pyStripC (codes s))) (codes f)) = true := by
        apply List.any_eq_true.mpr
        refine ⟨kw, ?_, ?_⟩
        · fin_cases hkw <;> decide
        · have hinf : codes kw <:+: lowC (codes s) := (hasInfixC_iff _ _).mp hcontain
          rw [show lowC (pyStripC (codes s)) = pyStripC (lowC (codes s)) from
            lowC_pyStripC _]
          apply (hasInfixC_iff _ _).mpr
          refine infix_pyStripC ?_ ?_ hinf
          · fin_cases hkw <;> decide
          · fin_cases hkw <;> decide
      rw [hforb]
      simp

theorem availability_clause_cases (a : AvailabilityPlan) (t : PyDate) :
    (availability_clause a t).1 = "" ∨
    (availability_clause a t).1 = "WHERE coalesce(load,0) < 1.0" ∨
    (availability_clause a t).1 =
      "WHERE coalesce(load,0) < 1.0 OR (latest_end IS NOT NULL AND date(latest_end) <= date($start))" := by
  unfold availability_clause
  split
  · left; rfl
  · split
    · right; left; rfl
    · split
      · right; right; rfl
      · split
        · right; left; rfl
        · left; rfl

theorem availability_clause_fst_ne (a : AvailabilityPlan) (t : PyDate) :
    (availability_clause a t).1 = "" ∨ ¬((availability_clause a t).1 == "") = true := by
  rcases availability_clause_cases a t with h | h | h
  · exact Or.inl h
  · right; rw [h]; decide
  · right; rw [h]; decide

theorem skill_and_clause_cases (l : List String) :
    skill_and_clause l = "" ∨
    skill_and_clause l =
      "MATCH (p)-[:HAS_SKILL]->(s:Skill)\n" ++
      "WITH p, collect(DISTINCT toLower(coalesce(s.id,s.name,\x27\x27))) as skill_list\n" ++
      "WHERE ALL(x IN $skills WHERE ANY(sk IN skill_list WHERE sk CONTAINS x))\n" := by
  unfold skill_and_clause
  split
  · left; rfl
  · right; rfl

theorem cypher_counting_safe (plan : QueryPlan) (today : PyDate) :
    is_safe_readonly_cypher (cypher_counting plan today).1 = true ∧
    is_safe_cypher (cypher_counting plan today).1 = true := by
  unfold cypher_counting
  split
  · rcases availability_clause_cases plan.availability today with h | h | h <;>
      simp only [h] <;>
      exact validators_true_of_checks _ (by decide) (by decide) (by decide)
  · split
    · exact validators_true_of_checks _ (by decide) (by decide) (by decide)
    · rcases skill_and_clause_cases plan.skills with hs | hs <;>
        rcases availability_clause_cases plan.availability today with h | h | h <;>
        simp only [hs, h] <;>
        exact validators_true_of_checks _ (by decide) (by decide) (by decide)

theorem cypher_filtering_safe (plan : QueryPlan) (today : PyDate) :
    is_safe_readonly_cypher (cypher_filtering plan today).1 = true ∧
    is_safe_cypher (cypher_filtering plan today).1 = true := by
  unfold cypher_filtering
  rcases skill_and_clause_cases plan.skills with hs | hs <;>
    cases h1 : (!(plan.availability.type == "") && !(plan.availability.type == "none")) <;>
    cases hw : window_from_availability plan.availability today <;>
    cases h2 : truthyS plan.seniority <;>
    cases h3 : truthyS plan.timezone <;>
    simp only [Bool.false_eq_true, Bool.true_eq_false, reduceIte, hs, h1, h2, h3, hw] <;>
    exact validators_true_of_checks _ (by decide) (by decide) (by decide)

theorem cypher_aggregation_safe (plan : QueryPlan) (today : PyDate) :
    is_safe_readonly_cypher (cypher_aggregation plan today).1 = true ∧
    is_safe_cypher (cypher_aggregation plan today).1 = true := by
  unfold cypher_aggregation
  split
  · exact validators_true_of_checks _ (by decide) (by decide) (by decide)
  · split
    · rcases availability_clause_cases plan.availability today with h | h | h <;>
        simp only [Bool.false_eq_true, Bool.true_eq_false, reduceIte, h] <;>
        exact validators_true_of_checks _ (by decide) (by decide) (by decide)
    · rcases skill_and_clause_cases plan.skills with hs | hs <;>
        (cases hr : (plan.aggregation_kind == some "avg_rate")) <;>
        simp only [Bool.false_eq_true, Bool.true_eq_false, reduceIte, hs, hr] <;>
        exact validators_true_of_checks _ (by decide) (by decide) (by decide)

theorem cypher_reasoning_safe (plan : QueryPlan) :
    is_safe_readonly_cypher (cypher_reasoning plan).1 = true ∧
    is_safe_cypher (cypher_reasoning plan).1 = true := by
  unfold cypher_reasoning
  cases hk1 : (strLower (if plan.reasoning.kind == "" then "collab"
      else plan.reasoning.kind) == "collab_success") <;>
    cases hk2 : (strLower (if plan.reasoning.kind == "" then "collab"
      else plan.reasoning.kind) == "collab") <;>
    cases hk3 : (strLower (if plan.reasoning.kind == "" then "collab"
      else plan.reasoning.kind) == "uni_top") <;>
    cases hk4 : (strLower (if plan.reasoning.kind == "" then "collab"
      else plan.reasoning.kind) == "uni_pair") <;>
    cases hf : truthyS plan.reasoning.focus_person <;>
    simp only [Bool.false_eq_true, Bool.true_eq_false, reduceIte, hk1, hk2, hk3, hk4, hf] <;>
    exact validators_true_of_checks _ (by decide) (by decide) (by decide)

theorem cypher_temporal_safe (plan : QueryPlan) (today : PyDate) :
    is_safe_readonly_cypher (cypher_temporal plan today).1 = true ∧
    is_safe_cypher (cypher_temporal plan today).1 = true := by
  unfold cypher_temporal
  cases ha : (plan.availability.type == "after_end") <;>
    cases hw : window_from_availability plan.availability today <;>
    simp only [Bool.false_eq_true, Bool.true_eq_false, reduceIte, ha, hw] <;>
    exact validators_true_of_checks _ (by decide) (by decide) (by decide)

theorem cypher_scenario_safe (plan : QueryPlan) :
    is_safe_readonly_cypher (cypher_scenario plan).1 = true ∧
    is_safe_cypher (cypher_scenario plan).1 = true := by
  unfold cypher_scenario cypher_risk_spof
  cases hg : (plan.scenario.kind == "gap") <;>
    cases hr : (plan.scenario.kind == "risk") <;>
    cases ht : (plan.scenario.kind == "team_opt" && truthyS plan.rfp_keyword) <;>
    simp only [Bool.false_eq_true, Bool.true_eq_false, reduceIte, hg, hr, ht] <;>
    exact validators_true_of_checks _ (by decide) (by decide) (by decide)

theorem build_cypher_safe (plan : QueryPlan) (today : PyDate)
    (q : String × Params) (h : build_cypher_from_plan plan today = some q) :
    is_safe_readonly_cypher q.1 = true ∧ is_safe_cypher q.1 = true := by
  unfold build_cypher_from_plan at h
  split at h
  · injection h with h'
    subst h'
    exact cypher_counting_safe plan today
  · split at h
    · injection h with h'
      subst h'
      exact cypher_filtering_safe plan today
    · split at h
      · injection h with h'
        subst h'
        exact cypher_aggregation_safe plan today
      · split at h
        · injection h with h'
          subst h'
          exact cypher_reasoning_safe plan
        · split at h
          · injection h with h'
            subst h'
            exact cypher_temporal_safe plan today
          · split at h
            · injection h with h'
              subst h'
              exact cypher_scenario_safe plan
            · exact Option.noConfusion h

/-! ### Deduplication and ordering lemmas -/

theorem mem_dedupFirstAux [DecidableEq α] (a : α) :
    ∀ (l seen : List α), a ∈ dedupFirstAux seen l ↔ a ∈ l ∧ a ∉ seen
  | [], seen => by simp [dedupFirstAux]
  | x :: xs, seen => by
      unfold dedupFirstAux
      by_cases hx : x ∈ seen
      · rw [if_pos hx, mem_dedupFirstAux a xs seen]
        constructor
        · exact fun ⟨h1, h2⟩ => ⟨List.mem_cons_of_mem x h1, h2⟩
        · rintro ⟨h1, h2⟩
          rcases List.mem_cons.mp h1 with rfl | h1
          · exact absurd hx h2
          · exact ⟨h1, h2⟩
      · rw [if_neg hx]
        constructor
        · intro hmem
          rcases List.mem_cons.mp hmem with rfl | hmem
          · exact ⟨List.mem_cons_self _ _, hx⟩
          · have h := (mem_dedupFirstAux a xs (x :: seen)).mp hmem
            exact ⟨List.mem_cons_of_mem x h.1,
              fun hs => h.2 (List.mem_cons_of_mem x hs)⟩
        · rintro ⟨h1, h2⟩
          rcases List.mem_cons.mp h1 with rfl | h1
          · exact List.mem_cons_self _ _
          · by_cases hax : a = x
            · subst hax
              exact List.mem_cons_self _ _
            · refine List.mem_cons_of_mem x
                ((mem_dedupFirstAux a xs (x :: seen)).mpr ⟨h1, ?_⟩)
              intro hs
              rcases List.mem_cons.mp hs with h | h
              · exact hax h
              · exact h2 h

theorem mem_dedupFirst [DecidableEq α] (a : α) (l : List α) :
    a ∈ dedupFirst l ↔ a ∈ l := by
  unfold dedupFirst
  rw [mem_dedupFirstAux]
  simp

theorem nodup_dedupFirstAux [DecidableEq α] :
    ∀ (l seen : List α), (dedupFirstAux seen l).Nodup
  | [], seen => List.nodup_nil
  | x :: xs, seen => by
      unfold dedupFirstAux
      by_cases hx : x ∈ seen
      · rw [if_pos hx]
        exact nodup_dedupFirstAux xs seen
      · rw [if_neg hx]
        refine List.Nodup.cons ?_ (nodup_dedupFirstAux xs (x :: seen))
        intro hmem
        exact ((mem_dedupFirstAux x xs (x :: seen)).mp hmem).2 (List.mem_cons_self x seen)

theorem nodup_dedupFirst [DecidableEq α] (l : List α) : (dedupFirst l).Nodup :=
  nodup_dedupFirstAux l []

/-- Lexicographic key realising the risk ordering
(rank descending, load descending, skill ascending). -/
def riskKey (r : RiskRow) : ℕᵒᵈ ×ₗ (ℚᵒᵈ ×ₗ String) :=
  toLex (OrderDual.toDual r.risk_rank,
    toLex (OrderDual.toDual r.load, r.skill))

theorem riskLE_iff_key (a b : RiskRow) : riskLE a b = true ↔ riskKey a ≤ riskKey b := by
  unfold riskLE riskKey
  rw [Prod.Lex.le_iff]
  by_cases h1 : a.risk_rank = b.risk_rank
  · rw [if_pos h1]
    by_cases h2 : a.load = b.load
    · rw [if_pos h2]
      simp [Prod.Lex.le_iff, h1, h2, lt_irrefl]
    · rw [if_neg h2]
      simp only [decide_eq_true_eq]
      constructor
      · intro h
        refine Or.inr ⟨by simp [h1], ?_⟩
        rw [Prod.Lex.le_iff]
        exact Or.inl (by simpa using h)
      · rintro (h | ⟨-, h⟩)
        · exact absurd (by simpa using h) (by simp [h1, lt_irrefl])
        · rw [Prod.Lex.le_iff] at h
          rcases h with h | ⟨he, -⟩
          · simpa using h
          · exact absurd (by simpa using he) h2
  · rw [if_neg h1]
    simp only [decide_eq_true_eq]
    constructor
    · intro h
      exact Or.inl (by simpa using h)
    · rintro (h | ⟨he, -⟩)
      · simpa using h
      · exact absurd (by simpa using he) h1

theorem riskLE_trans (a b c : RiskRow) (hab : riskLE a b = true)
    (hbc : riskLE b c = true) : riskLE a c = true :=
  (riskLE_iff_key a c).mpr (le_trans ((riskLE_iff_key a b).mp hab)
    ((riskLE_iff_key b c).mp hbc))

theorem riskLE_total (a b : RiskRow) : (riskLE a b || riskLE b a) = true := by
  rcases le_total (riskKey a) (riskKey b) with h | h
  · rw [(riskLE_iff_key a b).mpr h]
    rfl
  · rw [(riskLE_iff_key b a).mpr h]
    simp

/-- Lexicographic key realising the per-role candidate ordering
(matched count descending, availability descending, rate ascending). -/
def candKey (x : Candidate) : ℕᵒᵈ ×ₗ (ℚᵒᵈ ×ₗ ℚ) :=
  toLex (OrderDual.toDual x.matched.length,
    toLex (OrderDual.toDual x.availability_percent, x.rate))

theorem candLE_iff_key (a b : Candidate) : candLE a b = true ↔ candKey a ≤ candKey b := by
  unfold candLE candKey
  rw [Prod.Lex.le_iff]
  by_cases h1 : a.matched.length = b.matched.length
  · rw [if_pos h1]
    by_cases h2 : a.availability_percent = b.availability_percent
    · rw [if_pos h2]
      simp [Prod.Lex.le_iff, h1, h2, lt_irrefl]
    · rw [if_neg h2]
      simp only [decide_eq_true_eq]
      constructor
      · intro h
        refine Or.inr ⟨by simp [h1], ?_⟩
        rw [Prod.Lex.le_iff]
        exact Or.inl (by simpa using h)
      · rintro (h | ⟨-, h⟩)
        · exact absurd (by simpa using h) (by simp [h1, lt_irrefl])
        · rw [Prod.Lex.le_iff] at h
          rcases h with h | ⟨he, -⟩
          · simpa using h
          · exact absurd (by simpa using he) h2
  · rw [if_neg h1]
    simp only [decide_eq_true_eq]
    constructor
    · intro h
      exact Or.inl (by simpa using h)
    · rintro (h | ⟨he, -⟩)
      · simpa using h
      · exact absurd (by simpa using he) h1

theorem candLE_trans (a b c : Candidate) (hab : candLE a b = true)
    (hbc : candLE b c = true) : candLE a c = true :=
  (candLE_iff_key a c).mpr (le_trans ((candLE_iff_key a b).mp hab)
    ((candLE_iff_key b c).mp hbc))

theorem candLE_total (a b : Candidate) : (candLE a b || candLE b a) = true := by
  rcases le_total (candKey a) (candKey b) with h | h
  · rw [(candLE_iff_key a b).mpr h]
    rfl
  · rw [(candLE_iff_key b a).mpr h]
    simp

theorem candLE_refl (a : Candidate) : candLE a a = true :=
  (candLE_iff_key a a).mpr le_rfl

theorem collabLE_trans (a b c : CollabRow) (hab : collabLE a b = true)
    (hbc : collabLE b c = true) : collabLE a c = true := by
  simp only [collabLE, decide_eq_true_eq] at *
  omega

theorem collabLE_total (a b : CollabRow) : (collabLE a b || collabLE b a) = true := by
  simp only [collabLE]
  rcases le_total b.shared_count a.shared_count with h | h <;> simp [h]

theorem strLE_trans (a b c : String) (hab : decide (a ≤ b) = true)
    (hbc : decide (b ≤ c) = true) : decide (a ≤ c) = true := by
  simp only [decide_eq_true_eq] at *
  exact le_trans hab hbc

theorem strLE_total (a b : String) : (decide (a ≤ b) || decide (b ≤ a)) = true := by
  rcases le_total a b with h | h <;> simp [h]

theorem readonly_rejects_badstart (s : String)
    (h : ∀ kw ∈ (["match", "with", "return"] : List String),
      isPrefC (codes kw) (lowC (pyStripC (codes s))) = false) :
    is_safe_readonly_cypher s = false := by
  simp only [is_safe_readonly_cypher]
  by_cases hc : pyStripC (codes s) = []
  · rw [if_pos hc]
  · rw [if_neg hc]
    have hany : (["match", "with", "return"].any
        fun kw => matchWordStartC (pyStripC (codes s)) (codes kw)) = false := by
      apply List.any_eq_false.mpr
      intro kw hkw
      simp only [Bool.not_eq_true]
      unfold matchWordStartC
      rw [h kw hkw]
      rfl
    rw [hany]
    rfl

/-! ### Claim theorems -/

/-- C1: Safety validator contract: (1) every query compiled by the engine
from any Query Plan over the six categories is accepted by the Safety
Validator `_is_safe_readonly_cypher` and also by the `_is_safe_cypher` gate
used in the answer pipeline; (2) every query string containing any keyword
of the spec's blocklist, in any letter case, is rejected by the Safety
Validator; and (3) every string not beginning (after stripping whitespace)
with MATCH, WITH, or RETURN case-insensitively is rejected. -/
theorem C1_safety_validator_contract :
    (∀ (plan : QueryPlan) (today : PyDate) (q : String × Params),
      build_cypher_from_plan plan today = some q →
      is_safe_readonly_cypher q.1 = true ∧ is_safe_cypher q.1 = true) ∧
    (∀ (s kw : String), kw ∈ specBlocklist →
      hasInfixC (lowC (codes s)) (codes kw) = true →
      is_safe_readonly_cypher s = false) ∧
    (∀ s : String,
      (∀ kw ∈ (["match", "with", "return"] : List String),
        isPrefC (codes kw) (lowC (pyStripC (codes s))) = false) →
      is_safe_readonly_cypher s = false) :=
  ⟨build_cypher_safe, readonly_rejects_forbidden, readonly_rejects_badstart⟩

/-- Witness for C1 at concrete inputs: a compiled filtering query is
accepted; a query containing DETACH is rejected; a string not starting with
MATCH/WITH/RETURN is rejected. -/
theorem C1_safety_validator_contract_witness :
    (is_safe_readonly_cypher
        (cypher_filtering { query_type := "filtering" } ⟨2025, 12, 15⟩).1 = true ∧
      is_safe_cypher
        (cypher_filtering { query_type := "filtering" } ⟨2025, 12, 15⟩).1 = true) ∧
    is_safe_readonly_cypher "MATCH (n) DETACH DELETE n" = false ∧
    is_safe_readonly_cypher "bogus query" = false :=
  ⟨C1_safety_validator_contract.1 { query_type := "filtering" } ⟨2025, 12, 15⟩
      (cypher_filtering { query_type := "filtering" } ⟨2025, 12, 15⟩) rfl,
   C1_safety_validator_contract.2.1 "MATCH (n) DETACH DELETE n" "detach"
      (by decide) (by decide),
   C1_safety_validator_contract.2.2 "bogus query" (by decide)⟩

/-- C2 (code bug): for a filtering Plan whose `availability.type` is
`"none"`, the compiled filtering query nevertheless contains the
spare-capacity filter `WHERE coalesce(load,0) < 1.0` — the `else` branch of
`_cypher_filtering` adds it unconditionally, contradicting the spec's
availability default and the code's own comment. -/
theorem C2_filtering_availability_default_bug :
    pyIn "WHERE coalesce(load,0) < 1.0"
      (cypher_filtering
        { query_type := "filtering", availability := { type := "none" } }
        ⟨2025, 12, 15⟩).1 = true := by decide

/-- C3: Temporal window arithmetic: "next month" evaluated on 2025-12-15
yields the window 2026-01-01 .. 2026-01-31 (both via the availability-plan
window computation and via question-text parsing), and a "Q1" question
evaluated at any date in 2025 yields 2025-01-01 .. 2025-03-31. -/
theorem C3_temporal_window_arithmetic :
    (window_from_availability { type := "next_month" } ⟨2025, 12, 15⟩ =
      some ("2026-01-01", "2026-01-31")) ∧
    (parse_time_window "Who is available next month?" ⟨2025, 12, 15⟩ =
      some ("2026-01-01", "2026-01-31")) ∧
    (∀ m d : Nat, parse_time_window "Who is available in Q1?" ⟨2025, m, d⟩ =
      some ("2025-01-01", "2025-03-31")) :=
  ⟨by decide, by decide, fun m d => by
    simp only [parse_time_window,
      show hasInfixC (lowC (codes "Who is available in Q1?"))
        (codes "this month") = false from rfl,
      show hasInfixC (lowC (codes "Who is available in Q1?"))
        (codes "next month") = false from rfl,
      show searchQuarter none (lowC (codes "Who is available in Q1?")) =
        some 1 from rfl,
      Bool.false_eq_true, reduceIte]
    rfl⟩

theorem mem_risk_spof_rows {g : Graph} {r : RiskRow} (h : r ∈ risk_spof_rows g) :
    ∃ owner, (r.skill == "") = false ∧ ownersOf g r.skill = [owner] ∧
      r = riskRowOf g r.skill owner := by
  unfold risk_spof_rows at h
  rcases List.mem_filterMap.mp h with ⟨key, hkey, hf⟩
  by_cases hk : (key == "") = true
  · rw [if_pos hk] at hf
    exact absurd hf (by simp)
  · rw [if_neg hk] at hf
    rcases ho : ownersOf g key with _ | ⟨o, rest⟩
    · rw [ho] at hf
      exact absurd hf (by simp)
    · rcases rest with _ | ⟨o2, rest2⟩
      · rw [ho] at hf
        simp only [Option.some_inj] at hf
        subst hf
        refine ⟨o, ?_, ?_, rfl⟩
        · simpa using hk
        · exact ho
      · rw [ho] at hf
        exact absurd hf (by simp)

theorem mem_risk_spof_result {g : Graph} {r : RiskRow}
    (h : r ∈ risk_spof_result g) : r ∈ risk_spof_rows g := by
  unfold risk_spof_result at h
  exact ((risk_spof_rows g).mergeSort_perm riskLE).mem_iff.mp
    (List.take_subset 50 _ h)

theorem risk_spof_rows_complete {g : Graph} {key : String} {o : String}
    (hk : (key == "") = false) (ho : ownersOf g key = [o]) :
    riskRowOf g key o ∈ risk_spof_rows g := by
  unfold risk_spof_rows
  apply List.mem_filterMap.mpr
  refine ⟨key, ?_, ?_⟩
  · have hmem : o ∈ ownersOf g key := by rw [ho]; exact List.mem_cons_self o []
    unfold ownersOf at hmem
    rcases List.mem_map.mp ((mem_dedupFirst _ _).mp hmem) with ⟨e, he, -⟩
    have hcond := (List.mem_filter.mp he).2
    have hkey : riskSkillKey e.2 = key := by simpa using hcond
    unfold skillKeys
    apply (mem_dedupFirst _ _).mpr
    exact List.mem_map.mpr ⟨e, (List.mem_filter.mp he).1, hkey⟩
  · rw [if_neg (by simp_all), ho]

/-- C4: risk (single point of failure) scoring: every result row of the risk
query is a nonempty skill key held by exactly one person, carrying that
owner's load and the threshold-based risk level; conversely (within the
LIMIT 50 row budget) every single-owner skill produces a row; the level is
HIGH for load ≥ 0.90, MEDIUM for 0.50 ≤ load < 0.90, LOW below 0.50 (so the
default thresholds classify 0.95/0.60/0.20 as HIGH/MEDIUM/LOW); and the
rows are ordered by risk rank descending, then load descending, then skill
ascending. -/
theorem C4_risk_spof_scoring :
    (∀ (g : Graph) (r : RiskRow), r ∈ risk_spof_result g →
      r.skill ≠ "" ∧ (ownersOf g r.skill).length = 1 ∧
      r.load = loadOf g r.owner_name ∧ r.risk_level = riskLevelOf r.load ∧
      r.risk_rank = riskRankOf r.load) ∧
    (∀ g : Graph, (risk_spof_rows g).length ≤ 50 →
      ∀ key : String, (key == "") = false → ∀ o : String,
      ownersOf g key = [o] →
      ∃ r ∈ risk_spof_result g, r.skill = key ∧ r.owner_name = o) ∧
    (∀ load : ℚ,
      (RISK_HIGH_THRESHOLD ≤ load → riskLevelOf load = "HIGH") ∧
      (RISK_MED_THRESHOLD ≤ load → load < RISK_HIGH_THRESHOLD →
        riskLevelOf load = "MEDIUM") ∧
      (load < RISK_MED_THRESHOLD → riskLevelOf load = "LOW")) ∧
    (riskLevelOf (95 / 100) = "HIGH" ∧ riskLevelOf (60 / 100) = "MEDIUM" ∧
      riskLevelOf (20 / 100) = "LOW") ∧
    (∀ g : Graph, List.Pairwise (fun a b => riskLE a b = true)
      (risk_spof_result g)) := by
  refine ⟨?_, ?_, ?_, ?_, ?_⟩
  · intro g r hr
    rcases mem_risk_spof_rows (mem_risk_spof_result hr) with ⟨o, hk, ho, hre⟩
    have hname : r.owner_name = o := by rw [hre]; rfl
    have hload : r.load = loadOf g o := by rw [hre]; rfl
    refine ⟨by simpa using hk, ?_, by rw [hload, hname], by rw [hre]; rfl,
      by rw [hre]; rfl⟩
    rw [ho]
    rfl
  · intro g hlen key hk o ho
    refine ⟨riskRowOf g key o, ?_, rfl, rfl⟩
    unfold risk_spof_result
    rw [List.take_of_length_le]
    · exact ((risk_spof_rows g).mergeSort_perm riskLE).mem_iff.mpr
        (risk_spof_rows_complete hk ho)
    · rw [List.length_mergeSort]
      exact hlen
  · intro load
    refine ⟨?_, ?_, ?_⟩
    · intro h
      unfold riskLevelOf
      rw [if_pos h]
    · intro h1 h2
      unfold riskLevelOf
      rw [if_neg (not_le.mpr h2), if_pos h1]
    · intro h
      unfold riskLevelOf
      rw [if_neg (not_le.mpr (lt_trans h (by norm_num [RISK_MED_THRESHOLD, RISK_HIGH_THRESHOLD]))),
        if_neg (not_le.mpr h)]
  · refine ⟨?_, ?_, ?_⟩ <;>
      norm_num [riskLevelOf, RISK_HIGH_THRESHOLD, RISK_MED_THRESHOLD]
  · intro g
    unfold risk_spof_result
    exact List.Pairwise.sublist (List.take_sublist 50 _)
      (List.sorted_mergeSort riskLE_trans riskLE_total (risk_spof_rows g))

/-- Concrete graph for the C4 witness: one skill held by exactly one person
whose load is 0.95. -/
def riskWitnessGraph : Graph :=
  { persons := ["Ann Smith"],
    hasSkill := [("Ann Smith", { id := some "Python" })],
    assigned := [{ person := "Ann Smith", allocation := some (95 / 100) }] }

/-- Witness for C4 on `riskWitnessGraph`. -/
theorem C4_risk_spof_scoring_witness :
    (∃ r ∈ risk_spof_result riskWitnessGraph, r.skill = "python" ∧
      r.owner_name = "Ann Smith" ∧ r.risk_level = riskLevelOf r.load) ∧
    riskLevelOf (95 / 100) = "HIGH" := by
  obtain ⟨r, hmem, hsk, hname⟩ :=
    C4_risk_spof_scoring.2.1 riskWitnessGraph (by decide) "python" (by decide)
      "Ann Smith" (by decide)
  have hprops := C4_risk_spof_scoring.1 riskWitnessGraph r hmem
  exact ⟨⟨r, hmem, hsk, hname, hprops.2.2.2.1⟩,
    (C4_risk_spof_scoring.2.2.1 (95 / 100)).1
      (by norm_num [RISK_HIGH_THRESHOLD])⟩

/-- Concrete graph for the C6 instance: a pipeline project requiring
python/aws/security, and spare-capacity people holding python and aws. -/
def gapWitnessGraph : Graph :=
  { persons := ["Ann", "Bob"],
    hasSkill := [("Ann", { id := some "Python" }), ("Bob", { id := some "AWS" })],
    assigned := [],
    requiresEdges := [(some "New RFP", { id := some "Python" }),
      (some "New RFP", { id := some "AWS" }),
      (some "New RFP", { id := some "Security" })] }

/-- C6: gap-analysis set algebra: `missing_skills` is exactly the set
difference of the required skills minus the skills of people with spare
capacity; in particular required `{python, aws, security}` with available
`{python, aws}` yields missing `{security}`. -/
theorem C6_gap_set_algebra :
    (∀ (g : Graph) (x : String),
      x ∈ missing_skills g ↔ x ∈ required_skills g ∧ x ∉ available_skills g) ∧
    (scenario_gap_result gapWitnessGraph =
      (["python", "aws", "security"], ["python", "aws"], ["security"])) := by
  constructor
  · intro g x
    simp [missing_skills, List.mem_filter]
  · rfl

/-! ### Classifier lemmas -/

theorem firstRuleMatch_mem (q : List Nat) :
    ∀ (rules : List (List String × String)) (c : String),
      firstRuleMatch q rules = some c → c ∈ rules.map Prod.snd
  | [], c => by simp [firstRuleMatch]
  | (kws, cat) :: rest, c => by
      unfold firstRuleMatch
      split
      · intro h
        simp only [Option.some_inj] at h
        subst h
        exact List.mem_cons_self _ _
      · intro h
        exact List.mem_cons_of_mem _ (firstRuleMatch_mem q rest c h)

/-- The six category names. -/
def sixCategories : List String :=
  ["counting", "filtering", "aggregation", "reasoning", "temporal", "scenario"]

theorem classify_heuristic_mem {question : String} {c : String}
    (h : classify_heuristic question = some c) : c ∈ sixCategories := by
  have hm := firstRuleMatch_mem _ classifyRules c h
  fin_cases hm <;> decide

theorem llm_fallback_mem (resp : Option String) :
    llm_fallback_category resp ∈ sixCategories := by
  cases resp with
  | none => decide
  | some content =>
      show (match llmCategoryMapping.find?
          (fun kv => hasInfixC (upC (pyStripC (codes content))) (codes kv.1)) with
        | some kv => kv.2
        | none => "scenario") ∈ sixCategories
      rcases hfind : llmCategoryMapping.find?
          (fun kv => hasInfixC (upC (pyStripC (codes content))) (codes kv.1)) with
        _ | kv
      · rw [hfind]
        decide
      · have hmem := List.mem_of_find?_eq_some hfind
        fin_cases hmem <;> (rw [hfind]; decide)

/-- C7: classification degradation: the classifier's result is always one of
the six categories; when the deterministic rules are inconclusive, a failed
language-model call resolves to `"scenario"`, and so does any model response
that contains none of the six known category tokens. -/
theorem C7_classification_degradation :
    (∀ (question : String) (resp : Option String),
      classify_query question resp ∈ sixCategories) ∧
    (∀ question : String, classify_heuristic question = none →
      classify_query question none = "scenario") ∧
    (∀ (question content : String), classify_heuristic question = none →
      (∀ kv ∈ llmCategoryMapping,
        hasInfixC (upC (pyStripC (codes content))) (codes kv.1) = false) →
      classify_query question (some content) = "scenario") := by
  refine ⟨?_, ?_, ?_⟩
  · intro question resp
    unfold classify_query
    rcases hh : classify_heuristic question with _ | c
    · exact llm_fallback_mem resp
    · exact classify_heuristic_mem hh
  · intro question hh
    unfold classify_query
    rw [hh]
    rfl
  · intro question content hh hnone
    unfold classify_query
    rw [hh]
    show (match llmCategoryMapping.find?
        (fun kv => hasInfixC (upC (pyStripC (codes content))) (codes kv.1)) with
      | some kv => kv.2
      | none => "scenario") = "scenario"
    rw [List.find?_eq_none.mpr (fun kv hkv => by simp [hnone kv hkv])]

/-- Witness for C7: a question matching no deterministic rule, with a junk
model response and with a failed model call, both classify as scenario. -/
theorem C7_classification_degradation_witness :
    classify_query "hello world" (some "BANANA") = "scenario" ∧
    classify_query "hello world" none = "scenario" :=
  ⟨C7_classification_degradation.2.2 "hello world" "BANANA" (by decide)
    (by decide),
   C7_classification_degradation.2.1 "hello world" (by decide)⟩

theorem firstRuleMatch_spec (q : List Nat) :
    ∀ (rules : List (List String × String)) (i : Nat) (hi : i < rules.length),
      (∀ j (hj : j < i),
        ((rules.get ⟨j, lt_trans hj hi⟩).1.any
          (fun k => hasInfixC q (codes k))) = false) →
      ((rules.get ⟨i, hi⟩).1.any (fun k => hasInfixC q (codes k))) = true →
      firstRuleMatch q rules = some (rules.get ⟨i, hi⟩).2
  | [], i, hi => absurd hi (by simp)
  | (kws, cat) :: rest, 0, hi => fun _ hhit => by
      simp only [List.get] at hhit ⊢
      unfold firstRuleMatch
      rw [if_pos hhit]
  | (kws, cat) :: rest, i + 1, hi => fun hpre hhit => by
      have h0 := hpre 0 (Nat.succ_pos i)
      simp only [List.get] at h0 hhit ⊢
      unfold firstRuleMatch
      rw [if_neg (by rw [h0]; simp)]
      exact firstRuleMatch_spec q rest i (Nat.lt_of_succ_lt_succ hi)
        (fun j hj => by
          have hji := hpre (j + 1) (Nat.succ_lt_succ hj)
          simpa only [List.get] using hji) hhit

/-- C8: classifier priority order: the deterministic keyword rules form the
fixed ordered table counting, aggregation, reasoning, temporal, scenario,
filtering; the first rule whose keyword set matches the processed question
decides the category; hence a question matching both an aggregation keyword
and a scenario keyword (and no earlier rule) classifies as aggregation. -/
theorem C8_classifier_priority_order :
    (classifyRules.map Prod.snd =
      ["counting", "aggregation", "reasoning", "temporal", "scenario",
       "filtering"]) ∧
    (∀ (question : String) (i : Nat) (hi : i < classifyRules.length),
      (∀ j (hj : j < i),
        ((classifyRules.get ⟨j, lt_trans hj hi⟩).1.any
          (fun k => hasInfixC (pyStripC (lowC (codes question))) (codes k)))
          = false) →
      ((classifyRules.get ⟨i, hi⟩).1.any
        (fun k => hasInfixC (pyStripC (lowC (codes question))) (codes k)))
        = true →
      classify_heuristic question = some (classifyRules.get ⟨i, hi⟩).2) ∧
    (classify_heuristic "What is the average rate? Also run a gap analysis."
      = some "aggregation") := by
  refine ⟨by decide, ?_, by decide⟩
  intro question i hi hpre hhit
  exact firstRuleMatch_spec (pyStripC (lowC (codes question))) classifyRules
    i hi hpre hhit

/-- Witness for C8: a question matching the aggregation rule (and the later
scenario and filtering rules) but not the counting rule classifies as
aggregation through the priority order. -/
theorem C8_classifier_priority_order_witness :
    classify_heuristic "Show the average rate and run a gap analysis."
      = some "aggregation" :=
  C8_classifier_priority_order.2.1
    "Show the average rate and run a gap analysis." 1 (by decide)
    (fun j hj => by
      have hj0 : j = 0 := Nat.lt_one_iff.mp hj
      subst hj0
      show ((classifyRules.get ⟨0, by decide⟩).1.any
        (fun k => hasInfixC (pyStripC (lowC
          (codes "Show the average rate and run a gap analysis.")))
          (codes k))) = false
      decide)
    (by decide)

/-! ### C9: deduplication in the reasoning queries -/

theorem collabPairs_lt {g : Graph} {p : String × String}
    (hp : p ∈ collabPairs g) : p.1 < p.2 := by
  unfold collabPairs at hp
  rcases List.mem_flatten.mp ((mem_dedupFirst _ _).mp hp) with ⟨inner, hinner, hpin⟩
  rcases List.mem_map.mp hinner with ⟨e1, he1, rfl⟩
  rcases List.mem_filterMap.mp hpin with ⟨e2, he2, hf⟩
  by_cases hc : (e1.2 == e2.2 && decide (e1.1 < e2.1)) = true
  · rw [if_pos hc] at hf
    have hlt := of_decide_eq_true ((Bool.and_eq_true _ _).mp hc).2
    simp only [Option.some_inj] at hf
    subst hf
    exact hlt
  · rw [if_neg hc] at hf
    exact absurd hf (by simp)

theorem mem_collab_result {g : Graph} {r : CollabRow}
    (h : r ∈ reasoning_collab_result g) :
    ∃ p ∈ collabPairs g, collabRowOf g p = r := by
  unfold reasoning_collab_result at h
  have h1 := List.take_subset _ _ h
  have h2 := (List.mergeSort_perm _ collabLE).mem_iff.mp h1
  have h3 := (List.mem_filter.mp h2).1
  exact List.mem_map.mp h3

theorem collab_result_lt {g : Graph} {r : CollabRow}
    (h : r ∈ reasoning_collab_result g) : r.person_a < r.person_b := by
  rcases mem_collab_result h with ⟨p, hp, hre⟩
  have := collabPairs_lt hp
  rw [← hre]
  exact this

theorem uni_pair_result_lt {g : Graph} {r : UniPairRow}
    (h : r ∈ reasoning_uni_pair_result g) :
    r.developer_1 < r.developer_2 := by
  unfold reasoning_uni_pair_result at h
  have h1 := List.take_subset _ _ h
  rcases List.mem_flatten.mp h1 with ⟨inner, hinner, hrin⟩
  rcases List.mem_map.mp hinner with ⟨e1, he1, rfl⟩
  rcases List.mem_filterMap.mp hrin with ⟨e2, he2, hf⟩
  by_cases hc : (e1.2 == e2.2 && decide (e1.1 < e2.1)) = true
  · rw [if_pos hc] at hf
    have hlt := of_decide_eq_true ((Bool.and_eq_true _ _).mp hc).2
    simp only [Option.some_inj] at hf
    subst hf
    exact hlt
  · rw [if_neg hc] at hf
    exact absurd hf (by simp)

/-- C9: reasoning deduplication: in the collab and uni_pair result sets
every row satisfies the canonical ordering `a.name < b.name`; consequently
no row is the mirror of another (if a row pairs a with b, no row pairs b
with a), and in the grouped collab result no ordered pair occurs twice. -/
theorem C9_reasoning_dedup :
    (∀ (g : Graph) (r : CollabRow), r ∈ reasoning_collab_result g →
      r.person_a < r.person_b) ∧
    (∀ (g : Graph) (r1 r2 : CollabRow), r1 ∈ reasoning_collab_result g →
      r2 ∈ reasoning_collab_result g →
      ¬(r1.person_a = r2.person_b ∧ r1.person_b = r2.person_a)) ∧
    (∀ g : Graph, List.Pairwise
      (fun r1 r2 => ¬(r1.person_a = r2.person_a ∧ r1.person_b = r2.person_b))
      (reasoning_collab_result g)) ∧
    (∀ (g : Graph) (r : UniPairRow), r ∈ reasoning_uni_pair_result g →
      r.developer_1 < r.developer_2) ∧
    (∀ (g : Graph) (r1 r2 : UniPairRow), r1 ∈ reasoning_uni_pair_result g →
      r2 ∈ reasoning_uni_pair_result g →
      ¬(r1.developer_1 = r2.developer_2 ∧ r1.developer_2 = r2.developer_1)) := by
  refine ⟨fun g r h => collab_result_lt h, ?_, ?_, fun g r h => uni_pair_result_lt h, ?_⟩
  · intro g r1 r2 h1 h2 ⟨hab, hba⟩
    have hl1 := collab_result_lt h1
    have hl2 := collab_result_lt h2
    rw [hab, hba] at hl1
    exact absurd hl2 (lt_asymm hl1)
  · intro g
    have hkeys : List.Pairwise
        (fun p1 p2 : String × String => ¬(p1.1 = p2.1 ∧ p1.2 = p2.2))
        (collabPairs g) :=
      List.Pairwise.imp (fun hne h => hne (Prod.ext h.1 h.2))
        (nodup_dedupFirst _)
    have h1 : List.Pairwise
        (fun r1 r2 : CollabRow =>
          ¬(r1.person_a = r2.person_a ∧ r1.person_b = r2.person_b))
        ((collabPairs g).map (collabRowOf g)) :=
      List.pairwise_map.mpr hkeys
    have h2 : List.Pairwise
        (fun r1 r2 : CollabRow =>
          ¬(r1.person_a = r2.person_a ∧ r1.person_b = r2.person_b))
        (((collabPairs g).map (collabRowOf g)).filter
          (fun r => decide (1 ≤ r.shared_count))) :=
      List.Pairwise.sublist (List.filter_sublist _) h1
    have h3 := (List.Perm.pairwise_iff (fun hab h => hab ⟨h.1.symm, h.2.symm⟩)
      (List.mergeSort_perm _ collabLE)).mpr h2
    exact List.Pairwise.sublist (List.take_sublist _ _) h3
  · intro g r1 r2 h1 h2 ⟨hab, hba⟩
    have hl1 := uni_pair_result_lt h1
    have hl2 := uni_pair_result_lt h2
    rw [hab, hba] at hl1
    exact absurd hl2 (lt_asymm hl1)

/-- Evaluation of a string comparison to `true` via the character lists. -/
theorem strLtT {a b : String} (h : a.toList < b.toList) : decide (a < b) = true :=
  decide_eq_true (String.lt_iff_toList_lt.mpr h)

/-- Evaluation of a string comparison to `false` via the character lists. -/
theorem strLtF {a b : String} (h : ¬ a.toList < b.toList) : decide (a < b) = false :=
  decide_eq_false (fun hl => h (String.lt_iff_toList_lt.mp hl))

/-- Concrete snapshot for the C9 witness: two people who worked at the same
company and studied at the same university. -/
def collabWitnessGraph : Graph :=
  { workedAt := [("Ann", "Acme"), ("Bob", "Acme")],
    studiedAt := [("Ann", "MIT"), ("Bob", "MIT")] }

/-- C9 witness: on `collabWitnessGraph` the single collab row and the single
uni-pair row are in their result sets and satisfy the canonical ordering. -/
theorem C9_reasoning_dedup_witness :
    ((⟨"Ann", "Bob", ["Acme"], 1⟩ : CollabRow) ∈
        reasoning_collab_result collabWitnessGraph ∧
      (⟨"Ann", "Bob", ["Acme"], 1⟩ : CollabRow).person_a <
        (⟨"Ann", "Bob", ["Acme"], 1⟩ : CollabRow).person_b) ∧
    ((⟨"Ann", "Bob", "MIT"⟩ : UniPairRow) ∈
        reasoning_uni_pair_result collabWitnessGraph ∧
      (⟨"Ann", "Bob", "MIT"⟩ : UniPairRow).developer_1 <
        (⟨"Ann", "Bob", "MIT"⟩ : UniPairRow).developer_2) := by
  have h1 : decide (("Ann" : String) < "Bob") = true := strLtT (by decide)
  have h2 : decide (("Ann" : String) < "Ann") = false := strLtF (by decide)
  have h3 : decide (("Bob" : String) < "Ann") = false := strLtF (by decide)
  have h4 : decide (("Bob" : String) < "Bob") = false := strLtF (by decide)
  have hpairs : collabPairs collabWitnessGraph = [("Ann", "Bob")] := by
    simp only [collabPairs, collabWitnessGraph, List.map_cons, List.map_nil,
      List.filterMap_cons, List.filterMap_nil, h1, h2, h3, h4, Bool.and_true,
      Bool.and_false, reduceIte, List.flatten]
    decide
  have hbase : ((collabPairs collabWitnessGraph).map
        (collabRowOf collabWitnessGraph)).filter
        (fun r => decide (1 ≤ r.shared_count))
      = [(⟨"Ann", "Bob", ["Acme"], 1⟩ : CollabRow)] := by
    rw [hpairs]
    decide
  have hc : reasoning_collab_result collabWitnessGraph
      = [(⟨"Ann", "Bob", ["Acme"], 1⟩ : CollabRow)] := by
    unfold reasoning_collab_result
    rw [hbase, List.mergeSort_singleton]
    rfl
  have hmc : (⟨"Ann", "Bob", ["Acme"], 1⟩ : CollabRow) ∈
      reasoning_collab_result collabWitnessGraph := by
    rw [hc]
    exact List.mem_singleton.mpr rfl
  have hu : reasoning_uni_pair_result collabWitnessGraph
      = [(⟨"Ann", "Bob", "MIT"⟩ : UniPairRow)] := by
    simp only [reasoning_uni_pair_result, collabWitnessGraph, List.map_cons,
      List.map_nil, List.filterMap_cons, List.filterMap_nil, h1, h2, h3, h4,
      Bool.and_true, Bool.and_false, reduceIte, List.flatten]
    decide
  have hmu : (⟨"Ann", "Bob", "MIT"⟩ : UniPairRow) ∈
      reasoning_uni_pair_result collabWitnessGraph := by
    rw [hu]
    exact List.mem_singleton.mpr rfl
  exact ⟨⟨hmc, C9_reasoning_dedup.1 collabWitnessGraph _ hmc⟩,
    ⟨hmu, C9_reasoning_dedup.2.2.2.1 collabWitnessGraph _ hmu⟩⟩

/-! ### C5: greedy team composition -/

theorem uniqueByName_sub : ∀ (seen : List String) (l : List Candidate) (c : Candidate),
    c ∈ uniqueByName seen l → c ∈ l
  | _, [], c => by simp [uniqueByName]
  | seen, r :: rs, c => by
      by_cases hs : r.name ∈ seen
      · rw [show uniqueByName seen (r :: rs)
            = if r.name ∈ seen then uniqueByName seen rs
              else r :: uniqueByName (r.name :: seen) rs from rfl,
          if_pos hs]
        exact fun h => List.mem_cons_of_mem _ (uniqueByName_sub seen rs c h)
      · rw [show uniqueByName seen (r :: rs)
            = if r.name ∈ seen then uniqueByName seen rs
              else r :: uniqueByName (r.name :: seen) rs from rfl,
          if_neg hs]
        intro h
        rcases List.mem_cons.mp h with rfl | h
        · exact List.mem_cons_self _ _
        · exact List.mem_cons_of_mem _ (uniqueByName_sub _ rs c h)

theorem uniqueByName_notin : ∀ (seen : List String) (l : List Candidate) (c : Candidate),
    c ∈ uniqueByName seen l → c.name ∉ seen
  | _, [], c => by simp [uniqueByName]
  | seen, r :: rs, c => by
      by_cases hs : r.name ∈ seen
      · rw [show uniqueByName seen (r :: rs)
            = if r.name ∈ seen then uniqueByName seen rs
              else r :: uniqueByName (r.name :: seen) rs from rfl,
          if_pos hs]
        exact uniqueByName_notin seen rs c
      · rw [show uniqueByName seen (r :: rs)
            = if r.name ∈ seen then uniqueByName seen rs
              else r :: uniqueByName (r.name :: seen) rs from rfl,
          if_neg hs]
        intro h
        rcases List.mem_cons.mp h with rfl | h
        · exact hs
        · intro hmem
          exact uniqueByName_notin _ rs c h (List.mem_cons_of_mem _ hmem)

theorem uniqueByName_names : ∀ (seen : List String) (l : List Candidate),
    (uniqueByName seen l).Pairwise (fun a b => a.name ≠ b.name)
  | _, [] => by simp [uniqueByName]
  | seen, r :: rs => by
      by_cases hs : r.name ∈ seen
      · rw [show uniqueByName seen (r :: rs)
            = if r.name ∈ seen then uniqueByName seen rs
              else r :: uniqueByName (r.name :: seen) rs from rfl,
          if_pos hs]
        exact uniqueByName_names seen rs
      · rw [show uniqueByName seen (r :: rs)
            = if r.name ∈ seen then uniqueByName seen rs
              else r :: uniqueByName (r.name :: seen) rs from rfl,
          if_neg hs]
        refine List.pairwise_cons.mpr ⟨?_, uniqueByName_names _ rs⟩
        intro c hc heq
        exact uniqueByName_notin _ rs c hc
          (by rw [← heq]; exact List.mem_cons_self _ _)

theorem greedyGo_nil (rows : List Candidate) (n : Nat) : greedyGo rows [] n = [] := rfl

theorem greedyGo_cons (rows : List Candidate) (ro : String) (rest : List String)
    (n : Nat) :
    greedyGo rows (ro :: rest) n =
      match (rows.filter (fun r => r.role == ro)).mergeSort candLE with
      | [] => []
      | best :: _ => if n + 1 ≥ 5 then [best] else best :: greedyGo rows rest (n + 1) :=
  rfl

theorem mergeSort_head_role {rows : List Candidate} {ro : String} {c : Candidate}
    {t : List Candidate}
    (hm : (rows.filter (fun r => r.role == ro)).mergeSort candLE = c :: t) :
    c ∈ rows ∧ c.role = ro := by
  have hcm : c ∈ (rows.filter (fun r => r.role == ro)).mergeSort candLE := by
    rw [hm]
    exact List.mem_cons_self _ _
  have hcf := (List.mergeSort_perm _ candLE).mem_iff.mp hcm
  rcases List.mem_filter.mp hcf with ⟨hcr, hrole⟩
  exact ⟨hcr, by simpa using hrole⟩

theorem greedyGo_head {rows : List Candidate} :
    ∀ (roles : List String) (n : Nat) (c : Candidate), c ∈ greedyGo rows roles n →
      ∃ ro ∈ roles, ∃ t,
        (rows.filter (fun r => r.role == ro)).mergeSort candLE = c :: t
  | [], n, c => by
      rw [greedyGo_nil]
      simp
  | ro :: rest, n, c => by
      rcases hm : (rows.filter (fun r => r.role == ro)).mergeSort candLE with _ | ⟨best, t⟩
      · rw [greedyGo_cons, hm]
        simp
      · rw [greedyGo_cons, hm]
        show c ∈ (if n + 1 ≥ 5 then [best] else best :: greedyGo rows rest (n + 1)) → _
        by_cases h5 : n + 1 ≥ 5
        · rw [if_pos h5]
          intro h
          rcases List.mem_singleton.mp h with rfl
          exact ⟨ro, List.mem_cons_self _ _, t, hm⟩
        · rw [if_neg h5]
          intro h
          rcases List.mem_cons.mp h with rfl | h
          · exact ⟨ro, List.mem_cons_self _ _, t, hm⟩
          · rcases greedyGo_head rest (n + 1) c h with ⟨ro2, hro2, t2, hm2⟩
            exact ⟨ro2, List.mem_cons_of_mem _ hro2, t2, hm2⟩

theorem greedyGo_best {rows : List Candidate} {roles : List String} {n : Nat}
    {c : Candidate} (hc : c ∈ greedyGo rows roles n) :
    c ∈ rows ∧ ∀ x ∈ rows, x.role = c.role → candLE c x = true := by
  rcases greedyGo_head roles n c hc with ⟨ro, hro, t, hm⟩
  rcases mergeSort_head_role hm with ⟨hcr, hrole⟩
  refine ⟨hcr, ?_⟩
  intro x hx hxr
  have hs := List.sorted_mergeSort candLE_trans candLE_total
    (rows.filter (fun r => r.role == ro))
  rw [hm] at hs
  have hxf : x ∈ rows.filter (fun r => r.role == ro) :=
    List.mem_filter.mpr ⟨hx, by simp [hxr, hrole]⟩
  have hxm : x ∈ c :: t := by
    rw [← hm]
    exact (List.mergeSort_perm _ candLE).mem_iff.mpr hxf
  rcases List.mem_cons.mp hxm with rfl | hxt
  · exact candLE_refl _
  · exact (List.pairwise_cons.mp hs).1 x hxt

theorem greedyGo_roles {rows : List Candidate} :
    ∀ (roles : List String) (n : Nat), roles.Pairwise (· ≠ ·) →
      (greedyGo rows roles n).Pairwise (fun c1 c2 => c1.role ≠ c2.role)
  | [], n, _ => by
      rw [greedyGo_nil]
      exact List.Pairwise.nil
  | ro :: rest, n, h => by
      rcases hm : (rows.filter (fun r => r.role == ro)).mergeSort candLE with _ | ⟨best, t⟩
      · rw [greedyGo_cons, hm]
        exact List.Pairwise.nil
      · rcases mergeSort_head_role hm with ⟨-, hbr⟩
        rw [greedyGo_cons, hm]
        show List.Pairwise _ (if n + 1 ≥ 5 then [best] else best :: greedyGo rows rest (n + 1))
        by_cases h5 : n + 1 ≥ 5
        · rw [if_pos h5]
          simp
        · rw [if_neg h5]
          refine List.pairwise_cons.mpr
            ⟨?_, greedyGo_roles rest (n + 1) (List.pairwise_cons.mp h).2⟩
          intro c hc
          rcases greedyGo_head rest (n + 1) c hc with ⟨ro2, hro2, t2, hm2⟩
          rcases mergeSort_head_role hm2 with ⟨-, hcr⟩
          rw [hbr, hcr]
          exact (List.pairwise_cons.mp h).1 ro2 hro2

theorem greedyGo_length {rows : List Candidate} :
    ∀ (roles : List String) (n : Nat), n < 5 → (greedyGo rows roles n).length ≤ 5 - n
  | [], n, _ => by
      rw [greedyGo_nil]
      simp
  | ro :: rest, n, h5 => by
      rcases hm : (rows.filter (fun r => r.role == ro)).mergeSort candLE with _ | ⟨best, t⟩
      · rw [greedyGo_cons, hm]
        simp
      · rw [greedyGo_cons, hm]
        show (if n + 1 ≥ 5 then [best] else best :: greedyGo rows rest (n + 1)).length ≤ 5 - n
        by_cases hge : n + 1 ≥ 5
        · rw [if_pos hge]
          simp only [List.length_singleton]
          omega
        · rw [if_neg hge]
          have := @greedyGo_length rows rest (n + 1) (by omega)
          simp only [List.length_cons]
          omega

theorem selected_team_eq (rows : List Candidate) :
    selected_team rows = greedyGo (uniqueByName [] rows)
      ((dedupFirst ((uniqueByName [] rows).map (fun r => r.role))).mergeSort
        (fun a b => decide (a ≤ b))) 0 := rfl

theorem selected_roles_nodup (rows : List Candidate) :
    ((dedupFirst ((uniqueByName [] rows).map (fun r => r.role))).mergeSort
      (fun a b => decide (a ≤ b))).Pairwise (· ≠ ·) :=
  ((List.mergeSort_perm _ _).nodup_iff).mpr (nodup_dedupFirst _)

/-- C5: greedy team-diversity selection: the selected team has pairwise
distinct roles (at most one candidate per role), each selected candidate is a
deduplicated input row that is optimal for its role under the greedy key
(most matched skills, then highest availability, then lowest rate), the team
has at most five members, and no two members share a name. -/
theorem C5_team_diversity :
    (∀ rows : List Candidate,
      (selected_team rows).Pairwise (fun c1 c2 => c1.role ≠ c2.role)) ∧
    (∀ (rows : List Candidate), ∀ c ∈ selected_team rows,
      c ∈ uniqueByName [] rows ∧
        ∀ x ∈ uniqueByName [] rows, x.role = c.role → candLE c x = true) ∧
    (∀ rows : List Candidate, (selected_team rows).length ≤ 5) ∧
    (∀ rows : List Candidate,
      (selected_team rows).Pairwise (fun c1 c2 => c1.name ≠ c2.name)) := by
  refine ⟨?_, ?_, ?_, ?_⟩
  · intro rows
    rw [selected_team_eq]
    exact greedyGo_roles _ 0 (selected_roles_nodup rows)
  · intro rows c hc
    rw [selected_team_eq] at hc
    exact greedyGo_best hc
  · intro rows
    rw [selected_team_eq]
    have := @greedyGo_length (uniqueByName [] rows)
      ((dedupFirst ((uniqueByName [] rows).map (fun r => r.role))).mergeSort
        (fun a b => decide (a ≤ b))) 0 (by omega)
    omega
  · intro rows
    rw [selected_team_eq]
    have hroles := @greedyGo_roles (uniqueByName [] rows) _ 0
      (selected_roles_nodup rows)
    refine List.Pairwise.imp_of_mem ?_ hroles
    intro c1 c2 h1 h2 hne
    have hm1 := (greedyGo_best h1).1
    have hm2 := (greedyGo_best h2).1
    have hnames := uniqueByName_names [] rows
    exact hnames.forall (fun a b hab => hab.symm) hm1 hm2
      (fun he => hne (he ▸ rfl))

/-- Evaluation of a string order test to `true` via the character lists. -/
theorem strLeT {a b : String} (h : a.toList ≤ b.toList) : decide (a ≤ b) = true :=
  decide_eq_true (String.le_iff_toList_le.mpr h)

/-- Candidates of the ten-person C5 witness pool. -/
def cAnn : Candidate := ⟨"Ann", "backend", ["python", "aws"], 50, 120⟩

/-- Second backend candidate. -/
def cBob : Candidate := ⟨"Bob", "backend", ["python"], 80, 100⟩

/-- Third backend candidate. -/
def cCid : Candidate := ⟨"Cid", "backend", ["python"], 60, 90⟩

/-- Fourth backend candidate. -/
def cDan : Candidate := ⟨"Dan", "backend", [], 90, 80⟩

/-- First frontend candidate. -/
def cEve : Candidate := ⟨"Eve", "frontend", ["react"], 70, 100⟩

/-- Second frontend candidate. -/
def cFay : Candidate := ⟨"Fay", "frontend", [], 95, 60⟩

/-- Third frontend candidate. -/
def cGil : Candidate := ⟨"Gil", "frontend", [], 95, 70⟩

/-- First qa candidate. -/
def cHal : Candidate := ⟨"Hal", "qa", ["selenium"], 40, 50⟩

/-- Second qa candidate. -/
def cIvy : Candidate := ⟨"Ivy", "qa", [], 50, 40⟩

/-- Third qa candidate. -/
def cJoy : Candidate := ⟨"Joy", "qa", [], 20, 45⟩

/-- The ten-candidate pool across three roles for the C5 witness. -/
def c5Rows : List Candidate :=
  [cAnn, cBob, cCid, cDan, cEve, cFay, cGil, cHal, cIvy, cJoy]

/-- C5 witness: on the concrete ten-candidate pool across three distinct
roles the selected team is exactly one best candidate per role, with
pairwise distinct roles and names, at most five members, and a greedy-optimal
backend pick. -/
theorem C5_team_diversity_witness :
    selected_team c5Rows = [cAnn, cEve, cHal] ∧
    (selected_team c5Rows).Pairwise (fun c1 c2 => c1.role ≠ c2.role) ∧
    (selected_team c5Rows).length ≤ 5 ∧
    (selected_team c5Rows).Pairwise (fun c1 c2 => c1.name ≠ c2.name) ∧
    (cAnn ∈ uniqueByName [] c5Rows ∧
      ∀ x ∈ uniqueByName [] c5Rows, x.role = cAnn.role → candLE cAnn x = true) := by
  have hu : uniqueByName [] c5Rows = c5Rows := by decide
  have hbm : (c5Rows.filter (fun r => r.role == "backend")).mergeSort candLE
      = [cAnn, cBob, cCid, cDan] := by
    rw [show c5Rows.filter (fun r => r.role == "backend")
        = [cAnn, cBob, cCid, cDan] from by decide]
    exact List.mergeSort_of_sorted (by decide)
  have hfm : (c5Rows.filter (fun r => r.role == "frontend")).mergeSort candLE
      = [cEve, cFay, cGil] := by
    rw [show c5Rows.filter (fun r => r.role == "frontend")
        = [cEve, cFay, cGil] from by decide]
    exact List.mergeSort_of_sorted (by decide)
  have hqm : (c5Rows.filter (fun r => r.role == "qa")).mergeSort candLE
      = [cHal, cIvy, cJoy] := by
    rw [show c5Rows.filter (fun r => r.role == "qa")
        = [cHal, cIvy, cJoy] from by decide]
    exact List.mergeSort_of_sorted (by decide)
  have hg : greedyGo c5Rows ["backend", "frontend", "qa"] 0 = [cAnn, cEve, cHal] := by
    rw [greedyGo_cons, hbm]
    show (if 0 + 1 ≥ 5 then [cAnn] else cAnn :: greedyGo c5Rows ["frontend", "qa"] (0 + 1))
        = [cAnn, cEve, cHal]
    rw [if_neg (by decide), greedyGo_cons, hfm]
    show cAnn :: (if 0 + 1 + 1 ≥ 5 then [cEve]
        else cEve :: greedyGo c5Rows ["qa"] (0 + 1 + 1)) = [cAnn, cEve, cHal]
    rw [if_neg (by decide), greedyGo_cons, hqm]
    show cAnn :: cEve :: (if 0 + 1 + 1 + 1 ≥ 5 then [cHal]
        else cHal :: greedyGo c5Rows [] (0 + 1 + 1 + 1)) = [cAnn, cEve, cHal]
    rw [if_neg (by decide), greedyGo_nil]
  have hsel : selected_team c5Rows = [cAnn, cEve, cHal] := by
    rw [selected_team_eq, hu]
    rw [show dedupFirst (c5Rows.map (fun r => r.role))
        = ["backend", "frontend", "qa"] from by decide]
    rw [show (["backend", "frontend", "qa"] : List String).mergeSort
        (fun a b => decide (a ≤ b)) = ["backend", "frontend", "qa"] from
      List.mergeSort_of_sorted (by
        refine List.pairwise_cons.mpr ⟨fun b hb => ?_,
          List.pairwise_cons.mpr ⟨fun b hb => ?_,
            List.pairwise_cons.mpr ⟨fun b hb => absurd hb (List.not_mem_nil b),
              List.Pairwise.nil⟩⟩⟩ <;>
          fin_cases hb <;> exact strLeT (by decide))]
    exact hg
  have hAnn : cAnn ∈ selected_team c5Rows := by
    rw [hsel]
    exact List.mem_cons_self _ _
  refine ⟨hsel, C5_team_diversity.1 c5Rows, C5_team_diversity.2.2.1 c5Rows,
    C5_team_diversity.2.2.2 c5Rows, C5_team_diversity.2.1 c5Rows cAnn hAnn⟩

/-! ### C10: query text depends only on the plan shape -/

/-- The shape of a `QueryPlan`: the category, mode flags and field-presence
bits that steer the compilers, with every extracted value (skill names,
person names, timezone, seniority, RFP keyword, budget, allocation, team
size) erased. -/
structure PlanShape where
  query_type : String
  skills_empty : Bool
  certification_mode : Bool
  project_mode : Bool
  availability_type : String
  has_seniority : Bool
  has_timezone : Bool
  aggregation_kind : Option String
  reasoning_kind : String
  has_focus_person : Bool
  scenario_kind : String
  has_rfp_keyword : Bool
deriving DecidableEq, Repr

/-- Shape extraction from a plan. -/
def planShape (p : QueryPlan) : PlanShape :=
  ⟨p.query_type, p.skills.isEmpty, p.certification_mode, p.project_mode,
   p.availability.type, truthyS p.seniority, truthyS p.timezone,
   p.aggregation_kind, p.reasoning.kind, truthyS p.reasoning.focus_person,
   p.scenario.kind, truthyS p.rfp_keyword⟩

/-- The availability window exists exactly for the three month/quarter
types, independently of the evaluation date. -/
theorem window_isSome (a : AvailabilityPlan) (d : PyDate) :
    (window_from_availability a d).isSome =
      (a.type == "this_month" || a.type == "next_month" || a.type == "quarter") := by
  unfold window_from_availability
  by_cases h1 : a.type = "this_month"
  · simp [h1]
  · by_cases h2 : a.type = "next_month"
    · simp [h1, h2]
    · by_cases h3 : a.type = "quarter"
      · simp [h1, h2, h3]
      · simp [h1, h2, h3]

/-- The availability clause text as a function of the type alone. -/
def availability_text (t : String) : String :=
  if t == "none" then ""
  else if t == "now" then "WHERE coalesce(load,0) < 1.0"
  else if t == "this_month" || t == "next_month" || t == "quarter" then
    "WHERE coalesce(load,0) < 1.0 OR (latest_end IS NOT NULL AND date(latest_end) <= date($start))"
  else if t == "after_end" then "WHERE coalesce(load,0) < 1.0"
  else ""

/-- The text of the availability clause depends only on the type. -/
theorem availability_clause_fst (a : AvailabilityPlan) (d : PyDate) :
    (availability_clause a d).1 = availability_text a.type := by
  unfold availability_clause availability_text
  by_cases h1 : (a.type == "none") = true
  · simp [h1]
  · by_cases h2 : (a.type == "now") = true
    · simp [h1, h2]
    · by_cases h3 : (a.type == "this_month" || a.type == "next_month" ||
          a.type == "quarter") = true
      · simp [h1, h2, h3, window_isSome]
      · by_cases h4 : (a.type == "after_end") = true
        · simp [h1, h2, h3, h4, window_isSome]
        · simp [h1, h2, h3, h4, window_isSome]

/-- The skill clause text depends only on whether the skill list is empty. -/
theorem skill_and_clause_shape {s1 s2 : List String} (h : s1.isEmpty = s2.isEmpty) :
    skill_and_clause s1 = skill_and_clause s2 := by
  unfold skill_and_clause
  rw [h]

/-- The counting query text depends only on the plan shape. -/
theorem cypher_counting_text (p1 p2 : QueryPlan) (d1 d2 : PyDate)
    (hsk : p1.skills.isEmpty = p2.skills.isEmpty)
    (hcert : p1.certification_mode = p2.certification_mode)
    (hproj : p1.project_mode = p2.project_mode)
    (hav : p1.availability.type = p2.availability.type) :
    (cypher_counting p1 d1).1 = (cypher_counting p2 d2).1 := by
  unfold cypher_counting
  rw [hcert, hsk, hproj]
  by_cases h1 : (p2.certification_mode && !p2.skills.isEmpty) = true
  · simp only [h1, if_true, availability_clause_fst, hav]
  · simp only [h1, Bool.false_eq_true, if_false]
    by_cases h2 : p2.project_mode = true
    · simp only [h2, if_true]
    · simp only [h2, Bool.false_eq_true, if_false, availability_clause_fst, hav,
        skill_and_clause_shape hsk]

/-- The filtering query text depends only on the plan shape. -/
theorem cypher_filtering_text (p1 p2 : QueryPlan) (d1 d2 : PyDate)
    (hsk : p1.skills.isEmpty = p2.skills.isEmpty)
    (hav : p1.availability.type = p2.availability.type)
    (hsen : truthyS p1.seniority = truthyS p2.seniority)
    (htz : truthyS p1.timezone = truthyS p2.timezone) :
    (cypher_filtering p1 d1).1 = (cypher_filtering p2 d2).1 := by
  have hwin : (window_from_availability p1.availability d1).isSome
      = (window_from_availability p2.availability d2).isSome := by
    rw [window_isSome, window_isSome, hav]
  unfold cypher_filtering
  rw [hav, hsen, htz, skill_and_clause_shape hsk]
  by_cases hc : (!(p2.availability.type == "") && !(p2.availability.type == "none")) = true
  · rcases hw1 : window_from_availability p1.availability d1 with _ | w1 <;>
      rcases hw2 : window_from_availability p2.availability d2 with _ | w2
    · by_cases hs2 : truthyS p2.seniority = true <;>
        by_cases ht2 : truthyS p2.timezone = true <;>
          simp [hc, hw1, hw2, hs2, ht2]
    · rw [hw1, hw2] at hwin
      exact absurd hwin (by simp)
    · rw [hw1, hw2] at hwin
      exact absurd hwin (by simp)
    · by_cases hs2 : truthyS p2.seniority = true <;>
        by_cases ht2 : truthyS p2.timezone = true <;>
          simp [hc, hw1, hw2, hs2, ht2]
  · by_cases hs2 : truthyS p2.seniority = true <;>
      by_cases ht2 : truthyS p2.timezone = true <;>
        simp [hc, hs2, ht2]

/-- The aggregation query text depends only on the plan shape. -/
theorem cypher_aggregation_text (p1 p2 : QueryPlan) (d1 d2 : PyDate)
    (hsk : p1.skills.isEmpty = p2.skills.isEmpty)
    (hagg : p1.aggregation_kind = p2.aggregation_kind)
    (hav : p1.availability.type = p2.availability.type) :
    (cypher_aggregation p1 d1).1 = (cypher_aggregation p2 d2).1 := by
  unfold cypher_aggregation
  rw [hagg, skill_and_clause_shape hsk]
  by_cases h1 : (p2.aggregation_kind == some "skills_by_grad_year") = true
  · simp only [h1, if_true]
  · simp only [h1, Bool.false_eq_true, if_false]
    by_cases h2 : (p2.aggregation_kind == some "capacity_total") = true
    · simp only [h2, if_true, availability_clause_fst, hav]
    · by_cases h3 : (p2.aggregation_kind == some "avg_rate") = true <;>
        simp [h2, h3]

/-- The reasoning query text depends only on the plan shape. -/
theorem cypher_reasoning_text (p1 p2 : QueryPlan)
    (hkind : p1.reasoning.kind = p2.reasoning.kind)
    (hfoc : truthyS p1.reasoning.focus_person = truthyS p2.reasoning.focus_person) :
    (cypher_reasoning p1).1 = (cypher_reasoning p2).1 := by
  unfold cypher_reasoning
  rw [hkind, hfoc]
  generalize strLower (if (p2.reasoning.kind == "") = true then "collab"
    else p2.reasoning.kind) = k
  by_cases h1 : (k == "collab_success") = true <;>
    by_cases h2 : (k == "collab") = true <;>
      by_cases h3 : truthyS p2.reasoning.focus_person = true <;>
        by_cases h4 : (k == "uni_top") = true <;>
          by_cases h5 : (k == "uni_pair") = true <;>
            simp [h1, h2, h3, h4, h5]

/-- The temporal query text depends only on the plan shape. -/
theorem cypher_temporal_text (p1 p2 : QueryPlan) (d1 d2 : PyDate)
    (hav : p1.availability.type = p2.availability.type) :
    (cypher_temporal p1 d1).1 = (cypher_temporal p2 d2).1 := by
  have hwin : (window_from_availability p1.availability d1).isSome
      = (window_from_availability p2.availability d2).isSome := by
    rw [window_isSome, window_isSome, hav]
  unfold cypher_temporal
  rw [hav]
  by_cases hc : (p2.availability.type == "after_end") = true
  · simp only [hc, if_true]
  · simp only [hc, Bool.false_eq_true, if_false]
    rcases hw1 : window_from_availability p1.availability d1 with _ | w1 <;>
      rcases hw2 : window_from_availability p2.availability d2 with _ | w2
    · simp only [hw1, hw2]
    · rw [hw1, hw2] at hwin
      exact absurd hwin (by simp)
    · rw [hw1, hw2] at hwin
      exact absurd hwin (by simp)
    · simp only [hw1, hw2]

/-- The scenario query text depends only on the plan shape. -/
theorem cypher_scenario_text (p1 p2 : QueryPlan)
    (hscen : p1.scenario.kind = p2.scenario.kind)
    (hrfp : truthyS p1.rfp_keyword = truthyS p2.rfp_keyword) :
    (cypher_scenario p1).1 = (cypher_scenario p2).1 := by
  unfold cypher_scenario cypher_risk_spof
  rw [hscen, hrfp]
  by_cases h1 : (p2.scenario.kind == "gap") = true <;>
    by_cases h2 : (p2.scenario.kind == "risk") = true <;>
      by_cases h3 : (p2.scenario.kind == "team_opt" && truthyS p2.rfp_keyword) = true <;>
        simp [h1, h2, h3]

/-- C10: parameter binding: the compiled query text is a function of the
plan shape alone: two plans with the same shape, differing arbitrarily in
the extracted values (skills, focus person, timezone, seniority, RFP
keyword, budget, allocation, team size) and compiled on any two dates,
yield the identical query string. -/
theorem C10_parameter_binding (p1 p2 : QueryPlan) (d1 d2 : PyDate)
    (hs : planShape p1 = planShape p2) :
    Option.map Prod.fst (build_cypher_from_plan p1 d1)
      = Option.map Prod.fst (build_cypher_from_plan p2 d2) := by
  have hqt := congrArg PlanShape.query_type hs
  have hsk := congrArg PlanShape.skills_empty hs
  have hcert := congrArg PlanShape.certification_mode hs
  have hproj := congrArg PlanShape.project_mode hs
  have hav := congrArg PlanShape.availability_type hs
  have hsen := congrArg PlanShape.has_seniority hs
  have htz := congrArg PlanShape.has_timezone hs
  have hagg := congrArg PlanShape.aggregation_kind hs
  have hkind := congrArg PlanShape.reasoning_kind hs
  have hfoc := congrArg PlanShape.has_focus_person hs
  have hscen := congrArg PlanShape.scenario_kind hs
  have hrfp := congrArg PlanShape.has_rfp_keyword hs
  unfold build_cypher_from_plan
  rw [show p1.query_type = p2.query_type from hqt]
  by_cases h1 : (p2.query_type == "counting") = true
  · simp only [h1, if_true, Option.map_some]
    exact congrArg some (cypher_counting_text p1 p2 d1 d2 hsk hcert hproj hav)
  · simp only [h1, Bool.false_eq_true, if_false]
    by_cases h2 : (p2.query_type == "filtering") = true
    · simp only [h2, if_true, Option.map_some]
      exact congrArg some (cypher_filtering_text p1 p2 d1 d2 hsk hav hsen htz)
    · simp only [h2, Bool.false_eq_true, if_false]
      by_cases h3 : (p2.query_type == "aggregation") = true
      · simp only [h3, if_true, Option.map_some]
        exact congrArg some (cypher_aggregation_text p1 p2 d1 d2 hsk hagg hav)
      · simp only [h3, Bool.false_eq_true, if_false]
        by_cases h4 : (p2.query_type == "reasoning") = true
        · simp only [h4, if_true, Option.map_some]
          exact congrArg some (cypher_reasoning_text p1 p2 hkind hfoc)
        · simp only [h4, Bool.false_eq_true, if_false]
          by_cases h5 : (p2.query_type == "temporal") = true
          · simp only [h5, if_true, Option.map_some]
            exact congrArg some (cypher_temporal_text p1 p2 d1 d2 hav)
          · simp only [h5, Bool.false_eq_true, if_false]
            by_cases h6 : (p2.query_type == "scenario") = true
            · simp only [h6, if_true, Option.map_some]
              exact congrArg some (cypher_scenario_text p1 p2 hscen hrfp)
            · simp only [h6, Bool.false_eq_true, if_false, Option.map_none]

/-- First plan of the C10 witness: a filtering plan extracting python with
senior seniority, a timezone and a budget. -/
def c10PlanA : QueryPlan :=
  { query_type := "filtering", skills := ["python"],
    seniority := some "senior", timezone := some "UTC+1",
    budget := { max_rate := some 100 },
    availability := { type := "now" } }

/-- Second plan of the C10 witness: same shape, all extracted values
changed. -/
def c10PlanB : QueryPlan :=
  { query_type := "filtering", skills := ["java", "aws"],
    seniority := some "principal", timezone := some "UTC-5",
    budget := { max_rate := some 250 },
    availability := { type := "now" } }

/-- C10 witness: the two concrete same-shape plans compile to the identical
query string on two different dates. -/
theorem C10_parameter_binding_witness :
    planShape c10PlanA = planShape c10PlanB ∧
    Option.map Prod.fst (build_cypher_from_plan c10PlanA ⟨2025, 6, 1⟩)
      = Option.map Prod.fst (build_cypher_from_plan c10PlanB ⟨2025, 7, 15⟩) := by
  have h : planShape c10PlanA = planShape c10PlanB := by decide
  exact ⟨h, C10_parameter_binding c10PlanA c10PlanB _ _ h⟩

end BIEngine
